import Mathlib

set_option maxHeartbeats 1000000
set_option maxRecDepth 100000

/-!
Verification of the chart-generation processor (`src/utils/chartProcessor.js`):
the response normalizer (`cleanResponse`), the resilient JSON parse/repair engine
(`parseJSON`, `attemptJSONRepair`, `fixHTMLInJSON`), the response validation in
`generateChart`/`modifyChart`, and the prompt builders (`buildSystemPrompt`,
`buildUserPrompt`, `buildModificationPrompt`, `buildChartSummary`).

Strings are modelled as `List Char`. JavaScript's `JSON.parse` is modelled by the
strict fuel-indexed parser `strictParse`, and `JSON.stringify` by `serialize`.
JSON numbers are modelled as integers (every numeric literal exercised by the
verified behaviours is an integer), and object members are kept in textual order.
-/

/-- Whitespace characters recognized by JavaScript string trim (ASCII range). -/
def isJsWs (c : Char) : Bool :=
  decide (c = ' ' ∨ c = '\t' ∨ c = '\n' ∨ c = '\r' ∨ c = '\x0b' ∨ c = '\x0c')

/-- Model of JavaScript String.prototype.trim on a list of characters. -/
def jsTrim (s : List Char) : List Char :=
  ((s.dropWhile isJsWs).reverse.dropWhile isJsWs).reverse

/-- Boolean prefix test for character lists. -/
def isPrefixL : List Char → List Char → Bool
  | [], _ => true
  | _ :: _, [] => false
  | p :: ps, c :: cs => decide (p = c) && isPrefixL ps cs

/-- Boolean suffix test for character lists. -/
def isSuffixL (p s : List Char) : Bool :=
  isPrefixL p.reverse s.reverse

/-- Model of JavaScript String.prototype.includes: substring containment. -/
def containsSub (pat : List Char) : List Char → Bool
  | [] => isPrefixL pat []
  | c :: cs => isPrefixL pat (c :: cs) || containsSub pat cs

/-- Drop characters from the end of a list while a predicate holds. -/
def dropRightWhile (p : Char → Bool) (s : List Char) : List Char :=
  (s.reverse.dropWhile p).reverse

/-- Structured JSON values as produced by the strict parser. -/
inductive JSON where
  | null : JSON
  | bool : Bool → JSON
  | num : Int → JSON
  | str : List Char → JSON
  | arr : List JSON → JSON
  | obj : List (List Char × JSON) → JSON

/-- Whitespace accepted between JSON tokens (RFC 8259). -/
def isJsonWs (c : Char) : Bool :=
  decide (c = ' ' ∨ c = '\t' ∨ c = '\n' ∨ c = '\r')

/-- Skip JSON inter-token whitespace. -/
def skipWs : List Char → List Char
  | [] => []
  | c :: cs => if isJsonWs c then skipWs cs else c :: cs

/-- Decimal digit test by code point. -/
def isDigitB (c : Char) : Bool := decide (48 ≤ c.toNat ∧ c.toNat ≤ 57)

/-- Accumulate a run of decimal digits (the tail of an integer literal). -/
def readDigits : List Char → Nat → Nat × List Char
  | [], acc => (acc, [])
  | c :: cs, acc =>
    if isDigitB c then readDigits cs (acc * 10 + (c.toNat - 48)) else (acc, c :: cs)

/-- Parse a JSON natural-number literal (no leading zeros, per the JSON grammar). -/
def parseNat : List Char → Option (Nat × List Char)
  | [] => none
  | c :: cs =>
    if c = '0' then some (0, cs)
    else if isDigitB c then some (readDigits cs (c.toNat - 48))
    else none

/-- Parse a JSON integer literal with an optional leading minus sign. -/
def parseNumber : List Char → Option (Int × List Char)
  | [] => none
  | c :: cs =>
    if c = '-' then (parseNat cs).map (fun p => (-(p.1 : Int), p.2))
    else (parseNat (c :: cs)).map (fun p => ((p.1 : Int), p.2))

/-- Value of a hexadecimal digit (both cases accepted, as in JSON escapes). -/
def hexVal (c : Char) : Option Nat :=
  if 48 ≤ c.toNat ∧ c.toNat ≤ 57 then some (c.toNat - 48)
  else if 97 ≤ c.toNat ∧ c.toNat ≤ 102 then some (c.toNat - 87)
  else if 65 ≤ c.toNat ∧ c.toNat ≤ 70 then some (c.toNat - 55)
  else none

/-- Read the body of a JSON string after its opening quote, returning the decoded
characters and the remainder after the closing quote. Control characters below
0x20 must be escaped, exactly as in strict JSON.parse. -/
def readString : List Char → Option (List Char × List Char)
  | [] => none
  | c :: cs =>
    if c = '"' then some ([], cs)
    else if c = '\\' then
      match cs with
      | [] => none
      | e :: cs2 =>
        if e = '"' then (readString cs2).map (fun p => ('"' :: p.1, p.2))
        else if e = '\\' then (readString cs2).map (fun p => ('\\' :: p.1, p.2))
        else if e = '/' then (readString cs2).map (fun p => ('/' :: p.1, p.2))
        else if e = 'n' then (readString cs2).map (fun p => ('\n' :: p.1, p.2))
        else if e = 'r' then (readString cs2).map (fun p => ('\r' :: p.1, p.2))
        else if e = 't' then (readString cs2).map (fun p => ('\t' :: p.1, p.2))
        else if e = 'b' then (readString cs2).map (fun p => ('\x08' :: p.1, p.2))
        else if e = 'f' then (readString cs2).map (fun p => ('\x0c' :: p.1, p.2))
        else if e = 'u' then
          match cs2 with
          | h1 :: h2 :: h3 :: h4 :: cs3 =>
            match hexVal h1, hexVal h2, hexVal h3, hexVal h4 with
            | some a, some b, some c3, some d =>
              (readString cs3).map
                (fun p => (Char.ofNat (((a * 16 + b) * 16 + c3) * 16 + d) :: p.1, p.2))
            | _, _, _, _ => none
          | _ => none
        else none
    else if 32 ≤ c.toNat then (readString cs).map (fun p => (c :: p.1, p.2))
    else none

mutual

/-- Fuel-indexed parser for a single JSON value, modelling strict JSON.parse. -/
def parseValue : Nat → List Char → Option (JSON × List Char)
  | 0, _ => none
  | fuel + 1, s =>
    match skipWs s with
    | [] => none
    | c :: cs =>
      if c = 'n' then
        if isPrefixL ['u', 'l', 'l'] cs then some (.null, cs.drop 3) else none
      else if c = 't' then
        if isPrefixL ['r', 'u', 'e'] cs then some (.bool true, cs.drop 3) else none
      else if c = 'f' then
        if isPrefixL ['a', 'l', 's', 'e'] cs then some (.bool false, cs.drop 4) else none
      else if c = '"' then (readString cs).map (fun p => (.str p.1, p.2))
      else if c = '[' then
        match skipWs cs with
        | [] => none
        | d :: r =>
          if d = ']' then some (.arr [], r)
          else (parseElems fuel (d :: r)).map (fun p => (.arr p.1, p.2))
      else if c = '\x7b' then
        match skipWs cs with
        | [] => none
        | d :: r =>
          if d = '\x7d' then some (.obj [], r)
          else (parseMembers fuel (d :: r)).map (fun p => (.obj p.1, p.2))
      else (parseNumber (c :: cs)).map (fun p => (.num p.1, p.2))

/-- Parse one or more array elements followed by the closing bracket. -/
def parseElems : Nat → List Char → Option (List JSON × List Char)
  | 0, _ => none
  | fuel + 1, s =>
    match parseValue fuel s with
    | none => none
    | some (v, r) =>
      match skipWs r with
      | [] => none
      | d :: r2 =>
        if d = ',' then (parseElems fuel r2).map (fun p => (v :: p.1, p.2))
        else if d = ']' then some ([v], r2)
        else none

/-- Parse one or more object members followed by the closing brace. -/
def parseMembers : Nat → List Char → Option (List (List Char × JSON) × List Char)
  | 0, _ => none
  | fuel + 1, s =>
    match skipWs s with
    | [] => none
    | c :: cs =>
      if c = '"' then
        match readString cs with
        | none => none
        | some (k, r) =>
          match skipWs r with
          | [] => none
          | d :: r2 =>
            if d = ':' then
              match parseValue fuel r2 with
              | none => none
              | some (v, r3) =>
                match skipWs r3 with
                | [] => none
                | d2 :: r4 =>
                  if d2 = ',' then (parseMembers fuel r4).map (fun p => ((k, v) :: p.1, p.2))
                  else if d2 = '\x7d' then some ([(k, v)], r4)
                  else none
            else none
      else none

end

/-- Strict JSON parse of a whole text, modelling JSON.parse: a single value
surrounded only by optional whitespace. -/
def strictParse (s : List Char) : Option JSON :=
  match parseValue (s.length + 1) s with
  | some (v, rest) => if skipWs rest = [] then some v else none
  | none => none

/-- Decimal digit character. -/
def digitChar (n : Nat) : Char :=
  if n = 0 then '0' else if n = 1 then '1' else if n = 2 then '2' else if n = 3 then '3'
  else if n = 4 then '4' else if n = 5 then '5' else if n = 6 then '6' else if n = 7 then '7'
  else if n = 8 then '8' else '9'

/-- Fuel-indexed accumulator producing the decimal digits of a natural number. -/
def natDigitsAux : Nat → Nat → List Char → List Char
  | 0, _, acc => acc
  | fuel + 1, n, acc =>
    if n < 10 then digitChar n :: acc
    else natDigitsAux fuel (n / 10) (digitChar (n % 10) :: acc)

/-- Decimal representation of a natural number. -/
def natRepr (n : Nat) : List Char := natDigitsAux (n + 1) n []

/-- Decimal representation of an integer, as printed by JSON.stringify and by
JavaScript template-literal interpolation. -/
def serNum (i : Int) : List Char :=
  if i < 0 then '-' :: natRepr i.natAbs else natRepr i.toNat

/-- Hexadecimal digit character (lower case). -/
def hexChar (n : Nat) : Char :=
  if n < 10 then digitChar n
  else if n = 10 then 'a' else if n = 11 then 'b' else if n = 12 then 'c'
  else if n = 13 then 'd' else if n = 14 then 'e' else 'f'

/-- Escape one character for inclusion in a JSON string literal (JSON.stringify rules). -/
def escChar (c : Char) : List Char :=
  if c = '"' then ['\\', '"']
  else if c = '\\' then ['\\', '\\']
  else if c = '\n' then ['\\', 'n']
  else if c = '\r' then ['\\', 'r']
  else if c = '\t' then ['\\', 't']
  else if c = '\x08' then ['\\', 'b']
  else if c = '\x0c' then ['\\', 'f']
  else if c.toNat < 32 then ['\\', 'u', '0', '0', hexChar (c.toNat / 16), hexChar (c.toNat % 16)]
  else [c]

/-- Escape a whole string body. -/
def escString (s : List Char) : List Char := (s.map escChar).flatten

mutual

/-- Model of JSON.stringify with no spacing, used both for the round-trip theorems
and for the compact chart-state embedding in the modification prompt. -/
def serialize : JSON → List Char
  | .null => ("null").data
  | .bool true => ("true").data
  | .bool false => ("false").data
  | .num i => serNum i
  | .str s => '"' :: (escString s ++ ['"'])
  | .arr xs => '[' :: serElems xs
  | .obj fs => '\x7b' :: serMembers fs

/-- Serialize array elements including the closing bracket. -/
def serElems : List JSON → List Char
  | [] => [']']
  | [x] => serialize x ++ [']']
  | x :: y :: xs => serialize x ++ ',' :: serElems (y :: xs)

/-- Serialize object members including the closing brace. -/
def serMembers : List (List Char × JSON) → List Char
  | [] => ['\x7d']
  | [(k, v)] => '"' :: (escString k ++ '"' :: ':' :: (serialize v ++ ['\x7d']))
  | (k, v) :: m :: ms => '"' :: (escString k ++ '"' :: ':' :: (serialize v ++ ',' :: serMembers (m :: ms)))

end

mutual

/-- Structural size of a JSON value, bounded by the length of its serialization. -/
def sizeJ : JSON → Nat
  | .arr xs => 1 + sizeA xs
  | .obj fs => 1 + sizeM fs
  | _ => 1

/-- Structural size of an array-element list. -/
def sizeA : List JSON → Nat
  | [] => 0
  | x :: xs => sizeJ x + 1 + sizeA xs

/-- Structural size of an object-member list. -/
def sizeM : List (List Char × JSON) → Nat
  | [] => 0
  | (_, v) :: ms => sizeJ v + 1 + sizeM ms

end

theorem sizeJ_pos (v : JSON) : 1 ≤ sizeJ v := by
  cases v <;> simp [sizeJ]

theorem digitChar_toNat {n : Nat} (h : n < 10) : (digitChar n).toNat = 48 + n := by
  interval_cases n <;> rfl

theorem natDigitsAux_eq (n : Nat) : ∀ fuel acc, n < fuel → natDigitsAux fuel n acc = natRepr n ++ acc := by
  induction n using Nat.strong_induction_on with
  | _ n ih =>
    intro fuel acc hf
    match fuel, hf with
    | fuel + 1, hf =>
      by_cases h10 : n < 10
      · simp [natDigitsAux, h10, natRepr]
      · have hdiv : n / 10 < n := Nat.div_lt_self (by omega) (by omega)
        have hfd : n / 10 < fuel := by omega
        have h1 : natDigitsAux (fuel + 1) n acc
            = natDigitsAux fuel (n / 10) (digitChar (n % 10) :: acc) := by
          simp [natDigitsAux, h10]
        have h2 : natRepr n = natRepr (n / 10) ++ [digitChar (n % 10)] := by
          have h3 : natRepr n = natDigitsAux n (n / 10) [digitChar (n % 10)] := by
            simp [natRepr, natDigitsAux, h10]
          rw [h3, ih (n / 10) hdiv n [digitChar (n % 10)] hdiv]
        rw [h1, ih (n / 10) hdiv fuel (digitChar (n % 10) :: acc) hfd, h2, List.append_assoc]
        rfl

theorem natRepr_eq (n : Nat) :
    natRepr n = if n < 10 then [digitChar n] else natRepr (n / 10) ++ [digitChar (n % 10)] := by
  by_cases h10 : n < 10
  · simp [natRepr, natDigitsAux, h10]
  · have hdiv : n / 10 < n := Nat.div_lt_self (by omega) (by omega)
    have : natRepr n = natDigitsAux n (n / 10) [digitChar (n % 10)] := by
      simp [natRepr, natDigitsAux, h10]
    rw [this, natDigitsAux_eq (n / 10) n _ (by omega)]
    simp [h10]

theorem natRepr_ne_nil (n : Nat) : natRepr n ≠ [] := by
  rw [natRepr_eq]
  by_cases h10 : n < 10 <;> simp [h10]

theorem digitChar_digit {n : Nat} (h : n < 10) : isDigitB (digitChar n) = true := by
  interval_cases n <;> rfl

theorem natRepr_digits (n : Nat) : ∀ c ∈ natRepr n, isDigitB c = true := by
  induction n using Nat.strong_induction_on with
  | _ n ih =>
    rw [natRepr_eq]
    by_cases h10 : n < 10
    · simp [h10]
      exact digitChar_digit h10
    · have hdiv : n / 10 < n := Nat.div_lt_self (by omega) (by omega)
      simp [h10]
      intro c hc
      rcases hc with hc | hc
      · exact ih (n / 10) hdiv c hc
      · rw [hc]
        exact digitChar_digit (by omega)

theorem natRepr_head_ne_zero (n : Nat) (hn : 1 ≤ n) :
    ∀ c cs, natRepr n = c :: cs → c ≠ '0' := by
  induction n using Nat.strong_induction_on with
  | _ n ih =>
    intro c cs hrepr
    rw [natRepr_eq] at hrepr
    by_cases h10 : n < 10
    · simp [h10] at hrepr
      rw [← hrepr.1]
      interval_cases n <;> decide
    · simp [h10] at hrepr
      have hdiv : n / 10 < n := Nat.div_lt_self (by omega) (by omega)
      have hne := natRepr_ne_nil (n / 10)
      rcases h : natRepr (n / 10) with _ | ⟨c', cs'⟩
      · exact absurd h hne
      · rw [h] at hrepr
        simp only [List.cons_append] at hrepr
        injection hrepr with h1 h2
        exact h1 ▸ ih (n / 10) hdiv (by omega) c' cs' h

/-- Numeric value accumulated from a digit list. -/
def valFold (acc : Nat) (ds : List Char) : Nat :=
  ds.foldl (fun a c => a * 10 + (c.toNat - 48)) acc

/-- Does a text not begin with a decimal digit (so a preceding numeral cannot extend)? -/
def headNotDigit : List Char → Prop
  | [] => True
  | c :: _ => isDigitB c = false

theorem readDigits_digits : ∀ ds rest acc, (∀ c ∈ ds, isDigitB c = true) → headNotDigit rest →
    readDigits (ds ++ rest) acc = (valFold acc ds, rest) := by
  intro ds
  induction ds with
  | nil =>
    intro rest acc _ hrest
    cases rest with
    | nil => rfl
    | cons c cs =>
      simp only [headNotDigit] at hrest
      simp [readDigits, valFold, hrest]
  | cons d ds ih =>
    intro rest acc hds hrest
    have hd : isDigitB d = true := hds d (by simp)
    have hstep : readDigits ((d :: ds) ++ rest) acc
        = readDigits (ds ++ rest) (acc * 10 + (d.toNat - 48)) := by
      simp [readDigits, hd]
    rw [hstep, ih rest _ (fun c hc => hds c (by simp [hc])) hrest]
    rfl

theorem valFold_natRepr (n : Nat) : ∀ acc, valFold acc (natRepr n) = acc * 10 ^ (natRepr n).length + n := by
  induction n using Nat.strong_induction_on with
  | _ n ih =>
    intro acc
    rw [natRepr_eq]
    by_cases h10 : n < 10
    · simp [h10, valFold, digitChar_toNat h10]
    · have hdiv : n / 10 < n := Nat.div_lt_self (by omega) (by omega)
      simp only [h10, if_false]
      have hsplit : valFold acc (natRepr (n / 10) ++ [digitChar (n % 10)])
          = valFold (valFold acc (natRepr (n / 10))) [digitChar (n % 10)] := by
        simp [valFold, List.foldl_append]
      rw [hsplit, ih (n / 10) hdiv acc]
      have hd : (digitChar (n % 10)).toNat = 48 + n % 10 := digitChar_toNat (by omega)
      simp [valFold, hd, List.length_append, pow_succ]
      ring_nf
      omega

theorem parseNat_natRepr (n : Nat) (rest : List Char) (h : headNotDigit rest) :
    parseNat (natRepr n ++ rest) = some (n, rest) := by
  by_cases h0 : n = 0
  · subst h0
    have : natRepr 0 = ['0'] := rfl
    rw [this]
    simp [parseNat]
  · have hne := natRepr_ne_nil n
    rcases hr : natRepr n with _ | ⟨c, cs⟩
    · exact absurd hr hne
    · have hcd : isDigitB c = true := natRepr_digits n c (by rw [hr]; simp)
      have hc0 : c ≠ '0' := natRepr_head_ne_zero n (by omega) c cs hr
      have hds : ∀ x ∈ cs, isDigitB x = true := by
        intro x hx
        exact natRepr_digits n x (by rw [hr]; simp [hx])
      have hv : valFold (c.toNat - 48) cs = n := by
        have h1 : valFold 0 (natRepr n) = n := by
          rw [valFold_natRepr n 0]; simp
        rw [hr] at h1
        simpa [valFold] using h1
      have hstep : parseNat ((c :: cs) ++ rest) = some (readDigits (cs ++ rest) (c.toNat - 48)) := by
        simp [parseNat, hc0, hcd]
      rw [hstep, readDigits_digits cs rest _ hds h, hv]

theorem parseNumber_serNum (i : Int) (rest : List Char) (h : headNotDigit rest) :
    parseNumber (serNum i ++ rest) = some (i, rest) := by
  by_cases hneg : i < 0
  · have hform : serNum i ++ rest = '-' :: (natRepr i.natAbs ++ rest) := by
      simp [serNum, hneg]
    rw [hform]
    have hstep : parseNumber ('-' :: (natRepr i.natAbs ++ rest))
        = (parseNat (natRepr i.natAbs ++ rest)).map (fun p => (-(p.1 : Int), p.2)) := by
      simp [parseNumber]
    rw [hstep, parseNat_natRepr i.natAbs rest h]
    have habs : ((i.natAbs : Int)) = -i := by
      rw [← Int.natAbs_neg]
      exact Int.natAbs_of_nonneg (by omega)
    simp [habs]
  · have hform : serNum i = natRepr i.toNat := by simp [serNum, hneg]
    rw [hform]
    have hne := natRepr_ne_nil i.toNat
    rcases hr : natRepr i.toNat with _ | ⟨c, cs⟩
    · exact absurd hr hne
    · have hcd : isDigitB c = true := natRepr_digits i.toNat c (by rw [hr]; simp)
      have hcm : c ≠ '-' := by
        intro he
        rw [he] at hcd
        exact absurd hcd (by decide)
      have hstep : parseNumber ((c :: cs) ++ rest)
          = (parseNat ((c :: cs) ++ rest)).map (fun p => ((p.1 : Int), p.2)) := by
        simp [parseNumber, hcm]
      rw [hstep, ← hr, parseNat_natRepr i.toNat rest h]
      have htn : ((i.toNat : Int)) = i := Int.toNat_of_nonneg (by omega)
      simp [htn]

theorem hexVal_hexChar {n : Nat} (h : n < 16) : hexVal (hexChar n) = some n := by
  interval_cases n <;> rfl

theorem readString_escString (s : List Char) (rest : List Char) :
    readString (escString s ++ '"' :: rest) = some (s, rest) := by
  induction s with
  | nil =>
    have h0 : escString [] = [] := rfl
    rw [h0, List.nil_append, readString.eq_def]
    simp
  | cons c s ih =>
    have hesc : escString (c :: s) = escChar c ++ escString s := by
      simp [escString]
    rw [hesc, List.append_assoc]
    by_cases h1 : c = '"'
    · subst h1
      rw [show escChar '"' = ['\\', '"'] from rfl]
      rw [List.cons_append, List.cons_append, List.nil_append, readString.eq_def]
      simp [ih]
    · by_cases h2 : c = '\\'
      · subst h2
        rw [show escChar '\\' = ['\\', '\\'] from rfl]
        rw [List.cons_append, List.cons_append, List.nil_append, readString.eq_def]
        simp [ih]
      · by_cases h3 : c = '\n'
        · subst h3
          rw [show escChar '\n' = ['\\', 'n'] from rfl]
          rw [List.cons_append, List.cons_append, List.nil_append, readString.eq_def]
          simp [ih]
        · by_cases h4 : c = '\r'
          · subst h4
            rw [show escChar '\r' = ['\\', 'r'] from rfl]
            rw [List.cons_append, List.cons_append, List.nil_append, readString.eq_def]
            simp [ih]
          · by_cases h5 : c = '\t'
            · subst h5
              rw [show escChar '\t' = ['\\', 't'] from rfl]
              rw [List.cons_append, List.cons_append, List.nil_append, readString.eq_def]
              simp [ih]
            · by_cases h6 : c = '\x08'
              · subst h6
                rw [show escChar '\x08' = ['\\', 'b'] from rfl]
                rw [List.cons_append, List.cons_append, List.nil_append, readString.eq_def]
                simp [ih]
              · by_cases h7 : c = '\x0c'
                · subst h7
                  rw [show escChar '\x0c' = ['\\', 'f'] from rfl]
                  rw [List.cons_append, List.cons_append, List.nil_append, readString.eq_def]
                  simp [ih]
                · by_cases h8 : c.toNat < 32
                  · have hesc2 : escChar c
                        = ['\\', 'u', '0', '0', hexChar (c.toNat / 16), hexChar (c.toNat % 16)] := by
                      simp [escChar, h1, h2, h3, h4, h5, h6, h7, h8]
                    rw [hesc2]
                    have hhi : hexVal (hexChar (c.toNat / 16)) = some (c.toNat / 16) :=
                      hexVal_hexChar (by omega)
                    have hlo : hexVal (hexChar (c.toNat % 16)) = some (c.toNat % 16) :=
                      hexVal_hexChar (by omega)
                    have hval : c.toNat / 16 * 16 + c.toNat % 16 = c.toNat := by
                      omega
                    have h0 : hexVal '0' = some 0 := rfl
                    rw [List.cons_append, List.cons_append, List.cons_append, List.cons_append,
                      List.cons_append, List.cons_append, List.nil_append, readString.eq_def]
                    simp [h0, hhi, hlo, hval, Char.ofNat_toNat, ih]
                  · have hesc2 : escChar c = [c] := by
                      simp [escChar, h1, h2, h3, h4, h5, h6, h7, h8]
                    rw [hesc2]
                    have h32 : 32 ≤ c.toNat := by omega
                    rw [List.cons_append, List.nil_append, readString.eq_def]
                    simp [h1, h2, h32, ih]

theorem digit_not_jsonWs {c : Char} (h : isDigitB c = true) : isJsonWs c = false := by
  rw [isDigitB, decide_eq_true_iff] at h
  rw [isJsonWs, decide_eq_false_iff_not]
  rintro (rfl | rfl | rfl | rfl) <;> simp_all

theorem digit_ne_starts {c : Char} (h : isDigitB c = true) :
    c ≠ 'n' ∧ c ≠ 't' ∧ c ≠ 'f' ∧ c ≠ '"' ∧ c ≠ '[' ∧ c ≠ '\x7b' ∧ c ≠ ']' ∧ c ≠ '\x7d' := by
  rw [isDigitB, decide_eq_true_iff] at h
  refine ⟨?_, ?_, ?_, ?_, ?_, ?_, ?_, ?_⟩ <;> rintro rfl <;> simp_all

/-- Every serialization begins with a non-whitespace character that is neither a
closing bracket nor a closing brace. -/
theorem serialize_head (v : JSON) :
    ∃ c cs, serialize v = c :: cs ∧ isJsonWs c = false ∧ c ≠ ']' ∧ c ≠ '\x7d' := by
  cases v with
  | num i =>
    by_cases hneg : i < 0
    · refine ⟨'-', natRepr i.natAbs, by simp [serialize, serNum, hneg], ?_, ?_, ?_⟩ <;> decide
    · have hne := natRepr_ne_nil i.toNat
      rcases hr : natRepr i.toNat with _ | ⟨c, cs⟩
      · exact absurd hr hne
      · have hcd : isDigitB c = true := natRepr_digits i.toNat c (by rw [hr]; simp)
        have hd := digit_ne_starts hcd
        exact ⟨c, cs, by simp [serialize, serNum, hneg, hr], digit_not_jsonWs hcd,
          hd.2.2.2.2.2.2.1, hd.2.2.2.2.2.2.2⟩
  | bool b =>
    cases b
    · refine ⟨'f', _, rfl, ?_, ?_, ?_⟩ <;> decide
    · refine ⟨'t', _, rfl, ?_, ?_, ?_⟩ <;> decide
  | null => refine ⟨'n', _, rfl, ?_, ?_, ?_⟩ <;> decide
  | str s => refine ⟨'"', _, rfl, ?_, ?_, ?_⟩ <;> decide
  | arr xs => refine ⟨'[', serElems xs, by simp [serialize], ?_, ?_, ?_⟩ <;> decide
  | obj fs => refine ⟨'\x7b', serMembers fs, by simp [serialize], ?_, ?_, ?_⟩ <;> decide

theorem serNum_ne_nil (i : Int) : serNum i ≠ [] := by
  rw [serNum]
  by_cases hneg : i < 0
  · simp [hneg]
  · simp [hneg, natRepr_ne_nil]

theorem serLen_all (n : Nat) :
    (∀ v, sizeJ v ≤ n → sizeJ v ≤ (serialize v).length) ∧
    (∀ xs, sizeA xs ≤ n → sizeA xs ≤ (serElems xs).length) ∧
    (∀ fs, sizeM fs ≤ n → sizeM fs ≤ (serMembers fs).length) := by
  induction n with
  | zero =>
    refine ⟨fun v hv => ?_, fun xs hxs => ?_, fun fs hfs => ?_⟩
    · exact absurd hv (by have := sizeJ_pos v; omega)
    · cases xs with
      | nil => simp [sizeA]
      | cons x xs =>
        refine absurd hxs ?_
        have h1 := sizeJ_pos x
        have h2 : sizeA (x :: xs) = sizeJ x + 1 + sizeA xs := by simp [sizeA]
        omega
    · cases fs with
      | nil => simp [sizeM]
      | cons f fs =>
        rcases f with ⟨k, v⟩
        refine absurd hfs ?_
        have h1 := sizeJ_pos v
        have h2 : sizeM ((k, v) :: fs) = sizeJ v + 1 + sizeM fs := by simp [sizeM]
        omega
  | succ n ih =>
    obtain ⟨ihv, iha, ihm⟩ := ih
    refine ⟨fun v hv => ?_, fun xs hxs => ?_, fun fs hfs => ?_⟩
    · cases v with
      | null => simp [sizeJ, serialize]
      | bool b => cases b <;> simp [sizeJ, serialize]
      | num i =>
        have h2 : 1 ≤ (serNum i).length := by
          cases h : serNum i with
          | nil => exact absurd h (serNum_ne_nil i)
          | cons c cs => simp
        have h3 : serialize (.num i) = serNum i := by simp [serialize]
        rw [h3]
        simpa [sizeJ] using h2
      | str s => simp [sizeJ, serialize]
      | arr xs =>
        have h3 : sizeJ (.arr xs) = 1 + sizeA xs := by simp [sizeJ]
        have hxs : sizeA xs ≤ n := by omega
        have h1 := iha xs hxs
        have h2 : serialize (.arr xs) = '[' :: serElems xs := by simp [serialize]
        rw [h2, h3]
        simp only [List.length_cons]
        omega
      | obj fs =>
        have h3 : sizeJ (.obj fs) = 1 + sizeM fs := by simp [sizeJ]
        have hfs : sizeM fs ≤ n := by omega
        have h1 := ihm fs hfs
        have h2 : serialize (.obj fs) = '\x7b' :: serMembers fs := by simp [serialize]
        rw [h2, h3]
        simp only [List.length_cons]
        omega
    · cases xs with
      | nil => simp [sizeA]
      | cons x ys =>
        have hxpos := sizeJ_pos x
        have hxe : sizeA (x :: ys) = sizeJ x + 1 + sizeA ys := by simp [sizeA]
        have hx : sizeJ x ≤ n := by omega
        have hvx := ihv x hx
        cases ys with
        | nil =>
          have h1 : serElems [x] = serialize x ++ [']'] := by simp [serElems]
          have h2 : sizeA ([] : List JSON) = 0 := by simp [sizeA]
          rw [h1, hxe, h2]
          simp only [List.length_append, List.length_cons, List.length_nil]
          omega
        | cons y ys =>
          have hye : sizeA (y :: ys) = sizeJ y + 1 + sizeA ys := by simp [sizeA]
          have hypos := sizeJ_pos y
          have hy : sizeA (y :: ys) ≤ n := by omega
          have h1 := iha (y :: ys) hy
          have h2 : serElems (x :: y :: ys) = serialize x ++ ',' :: serElems (y :: ys) := by
            simp [serElems]
          rw [h2, hxe]
          simp only [List.length_append, List.length_cons]
          omega
    · cases fs with
      | nil => simp [sizeM]
      | cons f gs =>
        rcases f with ⟨k, v⟩
        have hvpos := sizeJ_pos v
        have hve : sizeM ((k, v) :: gs) = sizeJ v + 1 + sizeM gs := by simp [sizeM]
        have hv2 : sizeJ v ≤ n := by omega
        have hvv := ihv v hv2
        cases gs with
        | nil =>
          have h1 : serMembers [(k, v)]
              = '"' :: (escString k ++ '"' :: ':' :: (serialize v ++ ['\x7d'])) := by
            simp [serMembers]
          have h2 : sizeM ([] : List (List Char × JSON)) = 0 := by simp [sizeM]
          rw [h1, hve, h2]
          simp only [List.length_append, List.length_cons, List.length_nil]
          omega
        | cons g gs =>
          rcases g with ⟨k2, v2⟩
          have hg2pos := sizeJ_pos v2
          have hge : sizeM ((k2, v2) :: gs) = sizeJ v2 + 1 + sizeM gs := by simp [sizeM]
          have hg : sizeM ((k2, v2) :: gs) ≤ n := by omega
          have h1 := ihm ((k2, v2) :: gs) hg
          have h2 : serMembers ((k, v) :: (k2, v2) :: gs)
              = '"' :: (escString k ++ '"' :: ':' :: (serialize v ++ ',' :: serMembers ((k2, v2) :: gs))) := by
            simp [serMembers]
          rw [h2, hve]
          simp only [List.length_append, List.length_cons]
          omega

theorem serLen (v : JSON) : sizeJ v ≤ (serialize v).length :=
  (serLen_all (sizeJ v)).1 v (le_refl _)

theorem skipWs_not_ws {c : Char} (cs : List Char) (h : isJsonWs c = false) :
    skipWs (c :: cs) = c :: cs := by
  simp [skipWs, h]

theorem serNum_head_facts (i : Int) : ∃ c cs, serNum i = c :: cs ∧ isJsonWs c = false ∧
    c ≠ 'n' ∧ c ≠ 't' ∧ c ≠ 'f' ∧ c ≠ '"' ∧ c ≠ '[' ∧ c ≠ '\x7b' := by
  by_cases hneg : i < 0
  · refine ⟨'-', natRepr i.natAbs, by simp [serNum, hneg], by decide, by decide, by decide,
      by decide, by decide, by decide, by decide⟩
  · have hne := natRepr_ne_nil i.toNat
    rcases hr : natRepr i.toNat with _ | ⟨c, cs⟩
    · exact absurd hr hne
    · have hcd : isDigitB c = true := natRepr_digits i.toNat c (by rw [hr]; simp)
      have hd := digit_ne_starts hcd
      exact ⟨c, cs, by simp [serNum, hneg, hr], digit_not_jsonWs hcd,
        hd.1, hd.2.1, hd.2.2.1, hd.2.2.2.1, hd.2.2.2.2.1, hd.2.2.2.2.2.1⟩

theorem sizeA_cons (x : JSON) (xs : List JSON) : sizeA (x :: xs) = sizeJ x + 1 + sizeA xs := by
  simp [sizeA]

theorem sizeM_cons (k : List Char) (v : JSON) (ms : List (List Char × JSON)) :
    sizeM ((k, v) :: ms) = sizeJ v + 1 + sizeM ms := by
  simp [sizeM]

theorem parseValue_succ_lbracket (fuel : Nat) (cs : List Char) :
    parseValue (fuel + 1) ('[' :: cs)
      = match skipWs cs with
        | [] => none
        | d :: r =>
          if d = ']' then some (.arr [], r)
          else (parseElems fuel (d :: r)).map (fun p => (.arr p.1, p.2)) := by
  have h := skipWs_not_ws cs (show isJsonWs '[' = false by decide)
  rw [parseValue.eq_def]
  simp [h]

theorem parseValue_succ_lbrace (fuel : Nat) (cs : List Char) :
    parseValue (fuel + 1) ('\x7b' :: cs)
      = match skipWs cs with
        | [] => none
        | d :: r =>
          if d = '\x7d' then some (.obj [], r)
          else (parseMembers fuel (d :: r)).map (fun p => (.obj p.1, p.2)) := by
  have h := skipWs_not_ws cs (show isJsonWs '\x7b' = false by decide)
  rw [parseValue.eq_def]
  simp [h]

theorem parseElems_succ (fuel : Nat) (s : List Char) :
    parseElems (fuel + 1) s
      = match parseValue fuel s with
        | none => none
        | some (v, r) =>
          match skipWs r with
          | [] => none
          | d :: r2 =>
            if d = ',' then (parseElems fuel r2).map (fun p => (v :: p.1, p.2))
            else if d = ']' then some ([v], r2)
            else none := by
  rw [parseElems.eq_def]

theorem parseMembers_succ (fuel : Nat) (s : List Char) :
    parseMembers (fuel + 1) s
      = match skipWs s with
        | [] => none
        | c :: cs =>
          if c = '"' then
            match readString cs with
            | none => none
            | some (k, r) =>
              match skipWs r with
              | [] => none
              | d :: r2 =>
                if d = ':' then
                  match parseValue fuel r2 with
                  | none => none
                  | some (v, r3) =>
                    match skipWs r3 with
                    | [] => none
                    | d2 :: r4 =>
                      if d2 = ',' then (parseMembers fuel r4).map (fun p => ((k, v) :: p.1, p.2))
                      else if d2 = '\x7d' then some ([(k, v)], r4)
                      else none
                else none
          else none := by
  rw [parseMembers.eq_def]

theorem parse_ser (fuel : Nat) :
    (∀ v rest, sizeJ v < fuel → headNotDigit rest →
      parseValue fuel (serialize v ++ rest) = some (v, rest)) ∧
    (∀ x xs rest, sizeA (x :: xs) < fuel → headNotDigit rest →
      parseElems fuel (serElems (x :: xs) ++ rest) = some (x :: xs, rest)) ∧
    (∀ k v ms rest, sizeM ((k, v) :: ms) < fuel → headNotDigit rest →
      parseMembers fuel (serMembers ((k, v) :: ms) ++ rest) = some ((k, v) :: ms, rest)) := by
  induction fuel with
  | zero =>
    refine ⟨fun v rest hv _ => absurd hv (by have := sizeJ_pos v; omega),
      fun x xs rest hx _ => ?_, fun k v ms rest hm _ => ?_⟩
    · have h1 := sizeJ_pos x
      have h2 := sizeA_cons x xs
      omega
    · have h1 := sizeJ_pos v
      have h2 := sizeM_cons k v ms
      omega
  | succ fuel ih =>
    obtain ⟨ihv, ihe, ihm⟩ := ih
    refine ⟨fun v rest hv hrest => ?_, fun x xs rest hx hrest => ?_,
      fun k v ms rest hm hrest => ?_⟩
    · cases v with
      | null =>
        have hs : serialize JSON.null ++ rest = 'n' :: 'u' :: 'l' :: 'l' :: rest := by
          simp [serialize]
        rw [hs, parseValue.eq_def]
        simp [skipWs, isJsonWs, isPrefixL]
      | bool b =>
        cases b with
        | true =>
          have hs : serialize (JSON.bool true) ++ rest = 't' :: 'r' :: 'u' :: 'e' :: rest := by
            simp [serialize]
          rw [hs, parseValue.eq_def]
          simp [skipWs, isJsonWs, isPrefixL]
        | false =>
          have hs : serialize (JSON.bool false) ++ rest
              = 'f' :: 'a' :: 'l' :: 's' :: 'e' :: rest := by
            simp [serialize]
          rw [hs, parseValue.eq_def]
          simp [skipWs, isJsonWs, isPrefixL]
      | num i =>
        obtain ⟨c, cs, hser, hws, hn, ht, hf, hq, hbk, hbr⟩ := serNum_head_facts i
        have hs : serialize (JSON.num i) ++ rest = c :: (cs ++ rest) := by
          simp [serialize, hser]
        have hskip := skipWs_not_ws (cs ++ rest) hws
        have hnum : parseNumber (c :: (cs ++ rest)) = some (i, rest) := by
          have h1 : c :: (cs ++ rest) = serNum i ++ rest := by
            rw [hser]; rfl
          rw [h1]
          exact parseNumber_serNum i rest hrest
        rw [hs, parseValue.eq_def]
        simp [hskip, hn, ht, hf, hq, hbk, hbr, hnum]
      | str s =>
        have hs : serialize (JSON.str s) ++ rest = '"' :: (escString s ++ '"' :: rest) := by
          simp [serialize]
        have hskip := skipWs_not_ws (escString s ++ '"' :: rest)
          (show isJsonWs '"' = false by decide)
        have hrd := readString_escString s rest
        rw [hs, parseValue.eq_def]
        simp [hskip, hrd]
      | arr xs =>
        cases xs with
        | nil =>
          have hs : serialize (JSON.arr []) ++ rest = '[' :: (']' :: rest) := by
            simp [serialize, serElems]
          rw [hs, parseValue_succ_lbracket]
          rw [skipWs_not_ws rest (by decide)]
          simp
        | cons x xs =>
          obtain ⟨c, cs, hser, hws, hne1, hne2⟩ := serialize_head x
          have hex : ∃ rest2, serElems (x :: xs) = c :: rest2 := by
            cases xs with
            | nil => exact ⟨cs ++ [']'], by simp [serElems, hser]⟩
            | cons y ys => exact ⟨cs ++ ',' :: serElems (y :: ys), by simp [serElems, hser]⟩
          obtain ⟨rest2, hrest2⟩ := hex
          have hcc : serElems (x :: xs) ++ rest = c :: (rest2 ++ rest) := by
            rw [hrest2]; rfl
          have hs : serialize (JSON.arr (x :: xs)) ++ rest
              = '[' :: (serElems (x :: xs) ++ rest) := by
            simp [serialize]
          have hsize : sizeA (x :: xs) < fuel := by
            have h1 : sizeJ (JSON.arr (x :: xs)) = 1 + sizeA (x :: xs) := by simp [sizeJ]
            omega
          have hpe := ihe x xs rest hsize hrest
          have hpe2 : parseElems fuel (c :: (rest2 ++ rest)) = some (x :: xs, rest) := by
            rw [← hcc]; exact hpe
          rw [hs, parseValue_succ_lbracket, hcc, skipWs_not_ws (rest2 ++ rest) hws]
          simp [hne1, hpe2]
      | obj fs =>
        cases fs with
        | nil =>
          have hs : serialize (JSON.obj []) ++ rest = '\x7b' :: ('\x7d' :: rest) := by
            simp [serialize, serMembers]
          rw [hs, parseValue_succ_lbrace]
          rw [skipWs_not_ws rest (by decide)]
          simp
        | cons f fs =>
          rcases f with ⟨k, v⟩
          have hex : ∃ rest2, serMembers ((k, v) :: fs) = '"' :: rest2 := by
            cases fs with
            | nil =>
              exact ⟨escString k ++ '"' :: ':' :: (serialize v ++ ['\x7d']), by simp [serMembers]⟩
            | cons g gs =>
              exact ⟨escString k ++ '"' :: ':' :: (serialize v ++ ',' :: serMembers (g :: gs)),
                by simp [serMembers]⟩
          obtain ⟨rest2, hrest2⟩ := hex
          have hcc : serMembers ((k, v) :: fs) ++ rest = '"' :: (rest2 ++ rest) := by
            rw [hrest2]; rfl
          have hs : serialize (JSON.obj ((k, v) :: fs)) ++ rest
              = '\x7b' :: (serMembers ((k, v) :: fs) ++ rest) := by
            simp [serialize]
          have hsize : sizeM ((k, v) :: fs) < fuel := by
            have h1 : sizeJ (JSON.obj ((k, v) :: fs)) = 1 + sizeM ((k, v) :: fs) := by simp [sizeJ]
            omega
          have hpm := ihm k v fs rest hsize hrest
          have hpm2 : parseMembers fuel ('"' :: (rest2 ++ rest)) = some ((k, v) :: fs, rest) := by
            rw [← hcc]; exact hpm
          rw [hs, parseValue_succ_lbrace, hcc, skipWs_not_ws (rest2 ++ rest) (by decide)]
          simp [show ('"' : Char) ≠ '\x7d' from by decide, hpm2]
    · have hxe := sizeA_cons x xs
      have hxpos := sizeJ_pos x
      cases xs with
      | nil =>
        have hs : serElems [x] ++ rest = serialize x ++ (']' :: rest) := by
          simp [serElems]
        have hpv := ihv x (']' :: rest) (by omega) (show isDigitB ']' = false by decide)
        rw [hs, parseElems_succ, hpv]
        simp [skipWs, isJsonWs]
      | cons y ys =>
        have hs : serElems (x :: y :: ys) ++ rest
            = serialize x ++ (',' :: (serElems (y :: ys) ++ rest)) := by
          simp [serElems]
        have hpv := ihv x (',' :: (serElems (y :: ys) ++ rest)) (by omega)
          (show isDigitB ',' = false by decide)
        have hypos := sizeJ_pos y
        have hye := sizeA_cons y ys
        have hpe := ihe y ys rest (by omega) hrest
        rw [hs, parseElems_succ, hpv]
        simp [skipWs, isJsonWs, hpe]
    · have hme := sizeM_cons k v ms
      have hvpos := sizeJ_pos v
      cases ms with
      | nil =>
        have hs : serMembers [(k, v)] ++ rest
            = '"' :: (escString k ++ '"' :: (':' :: (serialize v ++ ('\x7d' :: rest)))) := by
          simp [serMembers]
        have hpv := ihv v ('\x7d' :: rest) (by omega) (show isDigitB '\x7d' = false by decide)
        have hrd : readString (escString k ++ '"' :: (':' :: (serialize v ++ ('\x7d' :: rest))))
            = some (k, ':' :: (serialize v ++ ('\x7d' :: rest))) :=
          readString_escString k _
        rw [hs, parseMembers_succ]
        simp [skipWs, isJsonWs, hrd, hpv]
      | cons g gs =>
        rcases g with ⟨k2, v2⟩
        have hs : serMembers ((k, v) :: (k2, v2) :: gs) ++ rest
            = '"' :: (escString k ++ '"' :: (':' :: (serialize v
                ++ (',' :: (serMembers ((k2, v2) :: gs) ++ rest))))) := by
          simp [serMembers]
        have hpv := ihv v (',' :: (serMembers ((k2, v2) :: gs) ++ rest)) (by omega)
          (show isDigitB ',' = false by decide)
        have hg2pos := sizeJ_pos v2
        have hge := sizeM_cons k2 v2 gs
        have hpm := ihm k2 v2 gs rest (by omega) hrest
        have hrd : readString (escString k ++ '"'
              :: (':' :: (serialize v ++ (',' :: (serMembers ((k2, v2) :: gs) ++ rest)))))
            = some (k, ':' :: (serialize v ++ (',' :: (serMembers ((k2, v2) :: gs) ++ rest)))) :=
          readString_escString k _
        rw [hs, parseMembers_succ]
        simp [skipWs, isJsonWs, hrd, hpv, hpm]

/-- Parsing the serialization of any value yields that value back (round trip). -/
theorem strictParse_serialize (v : JSON) : strictParse (serialize v) = some v := by
  have hfuel : sizeJ v < (serialize v).length + 1 := by
    have := serLen v
    omega
  have h := (parse_ser ((serialize v).length + 1)).1 v [] hfuel trivial
  rw [List.append_nil] at h
  rw [strictParse, h]
  simp [skipWs]

/-- Diagnosis attached to a parse failure (lines 438-445 of chartProcessor.js). -/
inductive Diag where
  | emptyInput : Diag
  | notJsonShaped : Diag
  | truncated : Diag
  | unknown : Diag
deriving DecidableEq

/-- Classified errors raised by the processor pipeline. -/
inductive Err where
  | empty : Err
  | refusal : Err
  | parseFail : Diag → Err
  | missingChartType : Err
  | missingData : Err
  | typeError : Err
deriving DecidableEq

/-- Character-level scan of fixHTMLInJSON (lines 630-673): escape literal newline,
carriage return and tab while inside a JSON string value. -/
def fixHTMLAux : Bool → Bool → List Char → List Char
  | _, _, [] => []
  | inString, true, c :: cs => c :: fixHTMLAux inString false cs
  | inString, false, c :: cs =>
    if c = '\\' then c :: fixHTMLAux inString true cs
    else if c = '"' then c :: fixHTMLAux (!inString) false cs
    else if inString then
      if c = '\n' then '\\' :: 'n' :: fixHTMLAux inString false cs
      else if c = '\r' then '\\' :: 'r' :: fixHTMLAux inString false cs
      else if c = '\t' then '\\' :: 't' :: fixHTMLAux inString false cs
      else c :: fixHTMLAux inString false cs
    else c :: fixHTMLAux inString false cs

/-- Model of fixHTMLInJSON (lines 621-682). -/
def fixHTMLInJSON (jsonText : List Char) : List Char := fixHTMLAux false false jsonText

/-- Stage-3 scan (lines 472-506): string-aware brace counting, recording the last
index at which the brace depth returns to zero, and the final in-string flag. -/
def braceScanAux : List Char → Nat → Bool → Bool → Int → Int → Int × Bool
  | [], _, inString, _, _, lastValidIndex => (lastValidIndex, inString)
  | c :: cs, i, inString, escapeNext, braceCount, lastValidIndex =>
    if escapeNext then braceScanAux cs (i + 1) inString false braceCount lastValidIndex
    else if c = '\\' then braceScanAux cs (i + 1) inString true braceCount lastValidIndex
    else if c = '"' then braceScanAux cs (i + 1) (!inString) false braceCount lastValidIndex
    else if !inString then
      if c = '\x7b' then braceScanAux cs (i + 1) inString false (braceCount + 1) lastValidIndex
      else if c = '\x7d' then
        braceScanAux cs (i + 1) inString false (braceCount - 1)
          (if braceCount - 1 = 0 then (i : Int) else lastValidIndex)
      else braceScanAux cs (i + 1) inString false braceCount lastValidIndex
    else braceScanAux cs (i + 1) inString false braceCount lastValidIndex

/-- Brace scan of a whole text from the initial state. -/
def braceScan (s : List Char) : Int × Bool := braceScanAux s 0 false false 0 (-1)

/-- Stage-5 quote scan (lines 539-549): count double quotes whose preceding
character is not a backslash, tracking the index of the last quote that made the
count odd. -/
def quoteScanAux : List Char → Nat → Option Char → Nat → Int → Int
  | [], _, _, _, lastOpenQuoteIndex => lastOpenQuoteIndex
  | c :: cs, i, prev, quoteCount, lastOpenQuoteIndex =>
    if c = '"' ∧ (i = 0 ∨ prev ≠ some '\\') then
      quoteScanAux cs (i + 1) (some c) (quoteCount + 1)
        (if (quoteCount + 1) % 2 = 1 then (i : Int) else lastOpenQuoteIndex)
    else quoteScanAux cs (i + 1) (some c) quoteCount lastOpenQuoteIndex

/-- Stage-6 scan (lines 560-589): net bracket and brace counts outside strings. -/
def bracketCountAux : List Char → Bool → Bool → Int → Int → Int × Int
  | [], _, _, arrayCount, objectCount => (arrayCount, objectCount)
  | c :: cs, inString, escapeNext, arrayCount, objectCount =>
    if escapeNext then bracketCountAux cs inString false arrayCount objectCount
    else if c = '\\' then bracketCountAux cs inString true arrayCount objectCount
    else if c = '"' then bracketCountAux cs (!inString) false arrayCount objectCount
    else if !inString then
      if c = '[' then bracketCountAux cs inString false (arrayCount + 1) objectCount
      else if c = ']' then bracketCountAux cs inString false (arrayCount - 1) objectCount
      else if c = '\x7b' then bracketCountAux cs inString false arrayCount (objectCount + 1)
      else if c = '\x7d' then bracketCountAux cs inString false arrayCount (objectCount - 1)
      else bracketCountAux cs inString false arrayCount objectCount
    else bracketCountAux cs inString false arrayCount objectCount

/-- Find the first double quote in a text, returning its offset, the character
immediately before it, and the suffix after it. -/
def seekQuote : List Char → Option Char → Nat → Option (Nat × Option Char × List Char)
  | [], _, _ => none
  | c :: cs, prev, k =>
    if c = '"' then some (k, prev, cs)
    else seekQuote cs (some c) (k + 1)

/-- All matches of the regular expression scan for quoted rgba tokens
(lines 520-523), as pairs of start index and end index (exclusive). A match at
index i is a quote, the five characters rgba and an opening parenthesis, at
least one non-quote character, a closing parenthesis, then a quote. -/
def rgbaScanAux : Nat → Nat → List Char → List (Nat × Nat)
  | 0, _, _ => []
  | _ + 1, _, [] => []
  | fuel + 1, i, c :: cs =>
    if c = '"' ∧ isPrefixL ['r', 'g', 'b', 'a', '('] cs then
      match seekQuote (cs.drop 5) none 0 with
      | some (k, prev, suffix) =>
        if 2 ≤ k ∧ prev = some ')' then
          (i, i + 6 + k + 1) :: rgbaScanAux fuel (i + 6 + k + 1) suffix
        else rgbaScanAux fuel (i + 1) cs
      | none => rgbaScanAux fuel (i + 1) cs
    else rgbaScanAux fuel (i + 1) cs

/-- Non-overlapping rgba-token matches of a whole text. -/
def rgbaMatches (s : List Char) : List (Nat × Nat) := rgbaScanAux (s.length + 1) 0 s

/-- Stage 4 (lines 518-534): the rgba array-close salvage heuristic. -/
def rgbaRepair (repaired : List Char) : Option (List Char) :=
  if containsSub (("borderColor").data) repaired ∧ containsSub (("rgba(").data) repaired then
    match (rgbaMatches repaired).getLast? with
    | some lastMatch =>
      let afterLastRgba := repaired.drop lastMatch.2
      if jsTrim afterLastRgba ≠ [] ∧ containsSub [']'] afterLastRgba = false then
        some (repaired.take lastMatch.2 ++ ("\n        ]\n      \x7d\n    ]\n  \x7d\n\x7d").data)
      else none
    | none => none
  else none

/-- Stage 5 (lines 537-557): close an unterminated string and append the fixed
closing sequence quote bracket brace brace. -/
def unterminatedRepair (repaired : List Char) : Option (List Char) :=
  let lastOpenQuoteIndex := quoteScanAux repaired 0 none 0 (-1)
  if lastOpenQuoteIndex > -1 then
    some (repaired.take (lastOpenQuoteIndex.toNat + 1) ++ ['"', ']', '\x7d', '\x7d'])
  else none

/-- Stage 6 (lines 560-607): append the missing closers, every bracket before
every brace; abandon the repair when more closers than openers were seen. -/
def closeBrackets (repaired : List Char) : Option (List Char) :=
  let counts := bracketCountAux repaired false false 0 0
  if counts.1 < 0 ∨ counts.2 < 0 then none
  else some (repaired ++ List.replicate counts.1.toNat ']' ++ List.replicate counts.2.toNat '\x7d')

/-- Model of attemptJSONRepair (lines 456-613): trim, apply the control-character
fix and re-check it by strict parse, then commit to the first later stage whose
trigger condition fires, returning its output without further checks. -/
def attemptJSONRepair (jsonText : List Char) : Option (List Char) :=
  let repaired := fixHTMLInJSON (jsTrim jsonText)
  if (strictParse repaired).isSome then some repaired
  else
    let scanned := braceScan repaired
    if scanned.1 > 0 ∧ scanned.1 < (repaired.length : Int) - 1 then
      some (repaired.take (scanned.1.toNat + 1))
    else
      match rgbaRepair repaired with
      | some r => some r
      | none =>
        if scanned.2 then
          match unterminatedRepair repaired with
          | some r => some r
          | none => closeBrackets repaired
        else closeBrackets repaired

/-- Failure diagnosis used when every repair fails (lines 438-445). -/
def diagnose (jsonText : List Char) : Diag :=
  if jsonText.length = 0 then .emptyInput
  else if isPrefixL ['\x7b'] (jsTrim jsonText) = false then .notJsonShaped
  else if isSuffixL ['\x7d'] (jsTrim jsonText) = false then .truncated
  else .unknown

/-- Model of parseJSON (lines 417-449): strict parse; on failure one repair
attempt whose single output is re-checked by strict parse; otherwise a
classified parse failure. -/
def parseJSON (jsonText : List Char) : Except Err JSON :=
  match strictParse jsonText with
  | some v => .ok v
  | none =>
    match attemptJSONRepair jsonText with
    | some repairedJson =>
      match strictParse repairedJson with
      | some v => .ok v
      | none => .error (.parseFail (diagnose jsonText))
    | none => .error (.parseFail (diagnose jsonText))

/-- First refusal pattern recognized by cleanResponse (line 393). -/
def apology1 : List Char := ("I apologize, but I couldn\x27t generate").data

/-- Second refusal pattern recognized by cleanResponse (line 394). -/
def apology2 : List Char := ("Please try rephrasing your request").data

/-- Strip one trailing fenced-code terminator with its preceding whitespace. -/
def stripFenceEnd (s : List Char) : List Char :=
  if isSuffixL (("```").data) s then dropRightWhile isJsWs (s.take (s.length - 3)) else s

/-- Model of cleanResponse (lines 385-409): reject empty input, reject refusal
boilerplate, strip code fences and stray backticks, trim. -/
def cleanResponse (responseText : List Char) : Except Err (List Char) :=
  if responseText = [] then .error .empty
  else
    let cleaned := jsTrim responseText
    if containsSub apology1 cleaned ∨ containsSub apology2 cleaned then .error .refusal
    else
      let cleaned :=
        if isPrefixL (("```json").data) cleaned then
          stripFenceEnd ((cleaned.drop 7).dropWhile isJsWs)
        else if isPrefixL (("```").data) cleaned then
          stripFenceEnd ((cleaned.drop 3).dropWhile isJsWs)
        else cleaned
      let cleaned := dropRightWhile (fun c => decide (c = '`'))
        (cleaned.dropWhile (fun c => decide (c = '`')))
      .ok (jsTrim cleaned)

/-- Look up a field of a JSON object member list. -/
def jsLookup : List (List Char × JSON) → List Char → Option JSON
  | [], _ => none
  | (k2, v) :: fs, k => if k2 = k then some v else jsLookup fs k

/-- JavaScript truthiness of a possibly-absent JSON value. -/
def jsTruthy : Option JSON → Bool
  | none => false
  | some .null => false
  | some (.bool b) => b
  | some (.num i) => decide (i ≠ 0)
  | some (.str s) => decide (s ≠ [])
  | some (.arr _) => true
  | some (.obj _) => true

/-- Property read with JavaScript semantics: a TypeError on null, undefined on
other primitives, lookup on objects. -/
def jsGetField : JSON → List Char → Except Err (Option JSON)
  | .null, _ => .error .typeError
  | .obj fs, k => .ok (jsLookup fs k)
  | _, _ => .ok none

/-- Update or append one member of an object member list. -/
def jsSetFields : List (List Char × JSON) → List Char → JSON → List (List Char × JSON)
  | [], k, x => [(k, x)]
  | (k2, v) :: fs, k, x => if k2 = k then (k2, x) :: fs else (k2, v) :: jsSetFields fs k x

/-- Property assignment with JavaScript semantics: a TypeError on null, silently
ignored on other primitives, update-or-append on objects. -/
def jsSetField : JSON → List Char → JSON → Except Err JSON
  | .null, _, _ => .error .typeError
  | .obj fs, k, x => .ok (.obj (jsSetFields fs k x))
  | v, _, _ => .ok v

/-- The validation-and-enrichment tail of generateChart (lines 44-59): require a
truthy chartType, require a truthy data or chartData, default user_message,
attach metadata. -/
def generateValidate (chartData : JSON) (serviceName : List Char) (metadata : JSON) :
    Except Err JSON :=
  match jsGetField chartData (("chartType").data) with
  | .error e => .error e
  | .ok ct =>
    if ¬ jsTruthy ct then .error .missingChartType
    else
      match jsGetField chartData (("data").data) with
      | .error e => .error e
      | .ok d1 =>
        match jsGetField chartData (("chartData").data) with
        | .error e => .error e
        | .ok d2 =>
          if ¬ jsTruthy d1 ∧ ¬ jsTruthy d2 then .error .missingData
          else
            match jsGetField chartData (("user_message").data) with
            | .error e => .error e
            | .ok um =>
              match
                (if ¬ jsTruthy um then
                  jsSetField chartData (("user_message").data)
                    (.str ((("Chart generated successfully using ").data) ++ serviceName))
                else .ok chartData) with
              | .error e => .error e
              | .ok enriched => jsSetField enriched (("_metadata").data) metadata

/-- Model of the response-processing pipeline of generateChart (lines 41-61), with
the adapter response content, the service name and the assembled metadata object
as inputs: normalize, parse/repair, validate the required fields, default
user_message, attach metadata. -/
def generateChart (content : List Char) (serviceName : List Char) (metadata : JSON) :
    Except Err JSON := do
  let cleaned ← cleanResponse content
  let chartData ← parseJSON cleaned
  generateValidate chartData serviceName metadata

/-- Model of the response-processing pipeline of modifyChart (lines 100-107):
normalize, parse/repair, attach metadata; no required-field validation and no
default user_message. -/
def modifyChart (content : List Char) (metadata : JSON) : Except Err JSON := do
  let cleaned ← cleanResponse content
  let chartData ← parseJSON cleaned
  jsSetField chartData (("_metadata").data) metadata

/-- Stage 3 as the specification words it: truncate at the last index where the
string-aware brace depth returns to zero, when that index exists strictly
before the end of the text. -/
def specStage3 (t : List Char) : List Char :=
  let scanned := braceScan t
  if 0 ≤ scanned.1 ∧ scanned.1 + 1 < (t.length : Int) then t.take (scanned.1.toNat + 1) else t

/-- Stage 4 as the specification words it: the rgba salvage as a pure transform
that passes the text through unchanged when its shape is not recognized. -/
def specStage4 (t : List Char) : List Char := (rgbaRepair t).getD t

/-- Stage 5 as the specification words it: close an unterminated string, passing
the text through unchanged when the scan does not end inside a string. -/
def specStage5 (t : List Char) : List Char :=
  if (braceScan t).2 then (unterminatedRepair t).getD t else t

/-- Closing token for an opening bracket kind. -/
def closerOf (c : Char) : Char := if c = '[' then ']' else '\x7d'

/-- Stage-6 stack scan as the specification words it: track a stack of opened
bracket kinds outside strings; a closer pops, and a closer on an empty stack
abandons the repair as over-closed. -/
def specStackScan : List Char → Bool → Bool → List Char → Option (List Char)
  | [], _, _, stack => some stack
  | c :: cs, inString, escapeNext, stack =>
    if escapeNext then specStackScan cs inString false stack
    else if c = '\\' then specStackScan cs inString true stack
    else if c = '"' then specStackScan cs (!inString) false stack
    else if inString then specStackScan cs inString false stack
    else if c = '[' ∨ c = '\x7b' then specStackScan cs inString false (c :: stack)
    else if c = ']' ∨ c = '\x7d' then
      match stack with
      | [] => none
      | _ :: st => specStackScan cs inString false st
    else specStackScan cs inString false stack

/-- Stage 6 as the specification words it: append the closers of the still-open
brackets in last-opened-first-closed order. -/
def specStage6 (t : List Char) : Option (List Char) :=
  (specStackScan t false false []).map (fun stack => t ++ stack.map closerOf)

/-- The repair chain exactly as the specification describes it: ordered stages,
each stage's output re-checked by strict parse, the engine stopping at the first
stage that yields valid JSON, and raising only when every stage is exhausted.
This definition follows the specification's words and is compared against the
source-derived parseJSON. -/
def specRepairChain (t : List Char) : Option JSON :=
  match strictParse t with
  | some v => some v
  | none =>
    let t1 := fixHTMLInJSON t
    match strictParse t1 with
    | some v => some v
    | none =>
      let t2 := specStage3 t1
      match strictParse t2 with
      | some v => some v
      | none =>
        let t3 := specStage4 t2
        match strictParse t3 with
        | some v => some v
        | none =>
          let t4 := specStage5 t3
          match strictParse t4 with
          | some v => some v
          | none =>
            match specStage6 t4 with
            | none => none
            | some t5 => strictParse t5

mutual

/-- JavaScript String() conversion of a JSON value, as used by template-literal
interpolation: strings embed raw, arrays join their elements with commas
(null elements becoming empty), objects print as [object Object]. -/
def jsToString : JSON → List Char
  | .null => ("null").data
  | .bool true => ("true").data
  | .bool false => ("false").data
  | .num i => serNum i
  | .str s => s
  | .arr xs => jsJoinComma xs
  | .obj _ => ("[object Object]").data

/-- Array.prototype.toString: elements joined by commas, null printed empty. -/
def jsJoinComma : List JSON → List Char
  | [] => []
  | [.null] => []
  | [x] => jsToString x
  | .null :: y :: xs => ',' :: jsJoinComma (y :: xs)
  | x :: y :: xs => jsToString x ++ ',' :: jsJoinComma (y :: xs)

end

/-- Array.prototype.join with an explicit separator, null elements printed empty. -/
def jsJoinWith (sep : List Char) : List JSON → List Char
  | [] => []
  | [.null] => []
  | [x] => jsToString x
  | .null :: y :: xs => sep ++ jsJoinWith sep (y :: xs)
  | x :: y :: xs => jsToString x ++ sep ++ jsJoinWith sep (y :: xs)

/-- Template-literal interpolation of a possibly-undefined value. -/
def jsShow : Option JSON → List Char
  | none => ("undefined").data
  | some v => jsToString v

/-- Template-literal interpolation of JSON.stringify of a possibly-undefined value. -/
def jsStringifyShow : Option JSON → List Char
  | none => ("undefined").data
  | some v => serialize v

/-- Template-literal interpolation of a possibly-undefined string. -/
def optStr : Option (List Char) → List Char
  | none => ("undefined").data
  | some s => s

/-- One template section as consumed by the prompt builders. -/
structure Sect where
  name : List Char
  type : List Char
  contentType : Option (List Char)
  note : Option (List Char)

/-- The sections property of a template as the builders see it: absent or null
(optional chaining short-circuits, a plain dereference raises), a non-nullish
value that is not an array (array methods such as some and filter are undefined
on it, so calling them raises a TypeError even when the value is falsy, e.g. 0),
or an array whose entries may themselves be null (a property read inside an
iteration callback then raises a TypeError). -/
inductive SectionsVal where
  | missing : SectionsVal
  | notArray : JSON → SectionsVal
  | array : List (Option Sect) → SectionsVal

/-- Template structure metadata. The chartArea object may be absent and the
sections value may be malformed, modelling caller input on which the JavaScript
code raises a TypeError when a builder dereferences or iterates the bad part. -/
structure Tpl where
  width : Option JSON
  height : Option JSON
  chartArea : Option (Option JSON × Option JSON)
  sections : SectionsVal

/-- Chart state supplied to modification calls; every property may be absent. -/
structure CState where
  chartType : Option JSON
  chartData : Option JSON
  chartConfig : Option JSON

/-- One conversation message; the content may be absent. -/
structure Msg where
  role : List Char
  content : Option (List Char)

/-- The line-167 scan sections?.some(s => s.contentType === 'html') over an
array value: entries are visited left to right, each visit reads contentType
(a TypeError, modelled as none, when the entry is null), and the scan stops at
the first html match, so entries after it are never touched. -/
def sectionsSomeHtml : List (Option Sect) → Option Bool
  | [] => some false
  | none :: _ => none
  | some s :: rest =>
    if s.contentType = some (("html").data) then some true else sectionsSomeHtml rest

/-- A sections array all of whose entries are non-null, as a list of sections;
none when some entry is null. The filter passes of lines 203 and 354 read a
property of every entry, so any null entry raises a TypeError there. -/
def allSections : List (Option Sect) → Option (List Sect)
  | [] => some []
  | none :: _ => none
  | some s :: rest => (allSections rest).map (fun l => s :: l)

/-- Model of buildSystemPrompt (lines 158-188). The optional chain at line 167
guards only a nullish sections value: a non-nullish non-array sections value
has no some method, and a null entry reached by the scan has no contentType, so
both raise a TypeError (none). -/
def buildSystemPrompt (aiContext : List Char) (templateStructure : Option Tpl) :
    Option (List Char) :=
  let prompt := aiContext ++ ("\n\nYou are an expert chart data generator. Always respond with valid JSON that follows Chart.js format. \nFocus on creating accurate, well-structured data that can be immediately used to render charts.\nInclude proper labels, datasets, colors, and configuration options.").data
  match templateStructure with
  | none => some prompt
  | some tpl =>
    let hasHtml : Option Bool := match tpl.sections with
      | .missing => some false
      | .notArray _ => none
      | .array entries => sectionsSomeHtml entries
    match hasHtml with
    | none => none
    | some hasHtmlSections =>
      let prompt := prompt ++ ("\n\nIMPORTANT: The user has selected a template layout. You MUST also generate relevant text content for each template text area based on the chart topic.\nThe response must include a \"templateContent\" object with content for each area type (title, heading, custom, main).").data
      some (if hasHtmlSections then
        prompt ++ ("\n\nSome sections require HTML formatted content. For those sections, generate well-structured HTML with semantic tags like <p>, <strong>, <em>, <ul>, <li>, <h3>, <h4>, etc.\n\nCRITICAL JSON FORMATTING RULE FOR HTML:\n- All HTML content MUST be on a SINGLE LINE within the JSON string\n- Do NOT include actual newlines inside HTML strings - they break JSON parsing\n- Use inline HTML: \"<h3>Title</h3><p>Content here</p><ul><li>Item</li></ul>\"\n- NEVER format HTML with line breaks inside the JSON string value").data
      else prompt)

/-- Description line for one non-chart template section (lines 209-217). -/
def sectionInfoLine (s : Sect) : List Char :=
  let formatType := if s.contentType = some (("html").data) then ("HTML formatted").data
    else ("plain text").data
  let info := ("- ").data ++ s.name ++ (" (").data ++ s.type ++ ("): Generate ").data
    ++ formatType ++ (" content").data
  match s.note with
  | some note =>
    if jsTrim note ≠ [] then
      info ++ ("\n  → USER NOTE: \"").data ++ note ++ ("\"").data
    else info
  | none => info

/-- Whether a section carries a non-blank user note (the s.note and s.note.trim()
test of lines 213 and 221). -/
def hasNote (s : Sect) : Bool :=
  match s.note with
  | some note => decide (jsTrim note ≠ [])
  | none => false

/-- First-occurrence deduplication, modelling the new Set(...) spread. -/
def dedupKeep (l : List (List Char)) : List (List Char) :=
  l.foldl (fun acc x => if x ∈ acc then acc else acc ++ [x]) []

/-- Model of buildUserPrompt (lines 196-291). Returns none exactly where the
JavaScript code raises a TypeError: a template whose sections value is nullish
or not an array, or whose sections array contains a null entry (the line-203
filter reads a property of every entry), or a template without a chartArea
object (line 227). -/
def buildUserPrompt (inputText : List Char) (templateStructure : Option Tpl) :
    Option (List Char) :=
  let prompt := ("User request: ").data ++ inputText
    ++ ("\n\nPlease generate chart data in valid JSON format.").data
  match templateStructure with
  | none => some prompt
  | some tpl =>
    match tpl.sections with
    | .missing => none
    | .notArray _ => none
    | .array entries =>
      match allSections entries with
      | none => none
      | some secs =>
        let nonChart := secs.filter (fun s => decide (s.type ≠ ("chart").data))
        let textSections := nonChart.filter (fun s => decide (s.contentType ≠ some (("html").data)))
        let htmlSections := nonChart.filter (fun s => decide (s.contentType = some (("html").data)))
        let sectionsInfo := List.intercalate ['\n'] (nonChart.map sectionInfoLine)
        let sectionsWithNotes := nonChart.filter hasNote
        match tpl.chartArea with
        | none => none
        | some ca =>
          let prompt := prompt ++ ("\n\nTemplate Structure:\n- Dimensions: ").data
            ++ jsShow tpl.width ++ ("px × ").data ++ jsShow tpl.height
            ++ ("px\n- Chart Area: ").data ++ jsShow ca.1 ++ ("px × ").data ++ jsShow ca.2
            ++ ("px\n- Text Sections to populate:\n").data ++ sectionsInfo
            ++ ("\n\nYour response MUST include a \"templateContent\" object with content for each section type.").data
          let prompt :=
            if sectionsWithNotes.length > 0 then
              prompt ++ ("\n\nIMPORTANT - User-Specified Instructions:\nThe user has provided specific notes for some sections. Please follow these instructions carefully:").data
                ++ sectionsWithNotes.foldl (fun acc s =>
                    acc ++ ("\n- ").data ++ s.name ++ (": ").data ++ optStr s.note) []
            else prompt
          let prompt :=
            if htmlSections.length > 0 then
              let htmlTypes := dedupKeep (htmlSections.map (fun s => s.type))
              prompt ++ ("\n\nHTML FORMAT REQUIRED for these sections: ").data
                ++ List.intercalate ((", ").data) htmlTypes
                ++ ("\nFor HTML sections, generate well-structured HTML with appropriate tags like <p>, <strong>, <em>, <ul>, <li>, <h3>, <h4>, <br>, etc.\nMake the HTML visually appealing with proper semantic markup.\n\nCRITICAL: When including HTML in JSON strings, you MUST:\n1. Keep HTML on a SINGLE LINE (no actual newlines inside the string)\n2. Use \\n for line breaks if needed\n3. Escape all double quotes inside HTML as \\\"\n\nCORRECT example in JSON:\n\"main\": \"<h3>Key Insights</h3><ul><li><strong>Trend:</strong> Growth</li></ul><p>Details here.</p>\"\n\nWRONG (will break JSON):\n\"main\": \"<h3>Key Insights</h3>\n<ul>\n  <li>Item</li>\n</ul>\"").data
            else prompt
          let prompt :=
            if textSections.length > 0 then
              let textTypes := dedupKeep (textSections.map (fun s => s.type))
              prompt ++ ("\n\nPLAIN TEXT FORMAT for these sections: ").data
                ++ List.intercalate ((", ").data) textTypes
                ++ ("\nFor plain text sections, generate clean, readable text without HTML tags.").data
            else prompt
          some (prompt ++ ("\n\nResponse format for templateContent:\n\x7b\n  \"title\": \"A concise, descriptive title for the chart\",\n  \"heading\": \"A brief subtitle or heading that provides context\",\n  \"custom\": \"Additional context or custom information (if applicable)\",\n  \"main\": \"A comprehensive explanation or analysis related to the chart data\"\n\x7d\n\nGenerate contextually relevant content for each section based on the chart topic and data, using the specified format (HTML or plain text) for each.").data)

/-- Property read through an optional chain step: object lookup, anything else
(null, undefined, primitives) yields undefined. -/
def ocGet : Option JSON → List Char → Option JSON
  | some (.obj fs), k => jsLookup fs k
  | _, _ => none

/-- Embedded form of one dataset in the chart summary (line 744): the quoted
label, Untitled when the label is falsy; none models the TypeError raised by a
property read on a null entry. -/
def dsLine (ds : JSON) : Option (List Char) :=
  match ds with
  | .null => none
  | .obj fs =>
    let lab := jsLookup fs (("label").data)
    some ('"' :: ((if jsTruthy lab then jsShow lab else ("Untitled").data) ++ ['"']))
  | _ => some ('"' :: (("Untitled").data ++ ['"']))

/-- JavaScript length of a value: defined for arrays and strings, undefined
otherwise (modelled as none, which compares false against any bound). -/
def jsLen : JSON → Option Nat
  | .arr xs => some xs.length
  | .str s => some s.length
  | _ => none

/-- Model of buildChartSummary (lines 722-754). Returns none exactly where the
JavaScript code raises a TypeError: join or map called on a truthy non-array
labels or datasets value, or a property read on a null dataset entry. -/
def buildChartSummary (chartState : Option CState) : Option (List Char) :=
  match chartState with
  | none => some (("No chart currently exists.").data)
  | some st =>
    match st.chartData with
    | none => some (("No chart currently exists.").data)
    | some cd =>
      if ¬ jsTruthy (some cd) then some (("No chart currently exists.").data)
      else
        let datasetsP := match cd with | .obj fs => jsLookup fs (("datasets").data) | _ => none
        let labelsP := match cd with | .obj fs => jsLookup fs (("labels").data) | _ => none
        let datasets : JSON := match datasetsP with
          | some v => if jsTruthy (some v) then v else .arr []
          | none => .arr []
        let labels : JSON := match labelsP with
          | some v => if jsTruthy (some v) then v else .arr []
          | none => .arr []
        let summary := ("Current chart is a ").data ++ jsShow st.chartType ++ (" chart").data
        let labelsBlock : Option (List Char) :=
          if (jsLen labels).getD 0 > 0 then
            let base := (" with ").data ++ natRepr ((jsLen labels).getD 0) ++ (" data points").data
            if (jsLen labels).getD 0 ≤ 5 then
              match labels with
              | .arr xs => some (base ++ (" (labels: ").data ++ jsJoinWith ((", ").data) xs ++ (")").data)
              | _ => none
            else
              match labels with
              | .arr xs => some (base ++ (" (labels: ").data ++ jsJoinWith ((", ").data) (xs.take 3)
                  ++ ("... and ").data ++ natRepr (xs.length - 3) ++ (" more)").data)
              | _ => none
          else some []
        match labelsBlock with
        | none => none
        | some lb =>
          let datasetsBlock : Option (List Char) :=
            if (jsLen datasets).getD 0 > 0 then
              match datasets with
              | .arr ds =>
                match ds.mapM dsLine with
                | some lines => some ((". It has ").data ++ natRepr ds.length
                    ++ (" dataset(s): ").data ++ List.intercalate ((", ").data) lines)
                | none => none
              | _ => none
            else some []
          match datasetsBlock with
          | none => none
          | some db =>
            let title := ocGet (ocGet (ocGet st.chartConfig (("plugins").data))
              (("title").data)) (("text").data)
            let titleBlock := if jsTruthy title then
                (". Chart title: \"").data ++ jsShow title ++ ("\"").data
              else []
            some (summary ++ lb ++ db ++ titleBlock)

/-- Embedded form of one history message (lines 304-308): the role, a colon, and
the content truncated to its first 300 characters with an ellipsis marker when
longer than 300 characters. -/
def msgLine (msg : Msg) : List Char :=
  let content : List Char := match msg.content with
    | some c => if 300 < c.length then c.take 300 ++ ("...").data else c
    | none => ("undefined").data
  msg.role ++ (": ").data ++ content

/-- The slice(-5) window of the message history (line 304). -/
def lastFive (history : List Msg) : List Msg := history.drop (history.length - 5)

/-- The conversation-history block of the modification prompt (lines 304-308). -/
def recentHistoryStr (history : List Msg) : List Char :=
  List.intercalate ['\n'] ((lastFive history).map msgLine)

/-- Model of buildModificationPrompt (lines 302-378). Returns none exactly where
the JavaScript code raises a TypeError: an absent chart state dereferenced at
line 314, a chart summary failure, or a template whose sections value is
nullish, not an array, or an array with a null entry, all of which make the
line-354 filter raise. -/
def buildModificationPrompt (modificationContext : List Char) (currentChartState : Option CState)
    (messageHistory : List Msg) (inputText : List Char) (templateStructure : Option Tpl) :
    Option (List Char) :=
  let recentHistory := recentHistoryStr messageHistory
  match buildChartSummary currentChartState with
  | none => none
  | some chartSummary =>
    match currentChartState with
    | none => none
    | some st =>
      let compactData := jsStringifyShow st.chartData
      let compactConfig := jsStringifyShow st.chartConfig
      let prompt := modificationContext
        ++ ("\n\nCURRENT CHART SUMMARY (for your understanding):\n").data ++ chartSummary
        ++ ("\n\nCURRENT CHART STATE (exact data):\n- Chart Type: ").data ++ jsShow st.chartType
        ++ ("\n- Data: ").data ++ compactData
        ++ ("\n- Config: ").data ++ compactConfig
        ++ ("\n\nCONVERSATION HISTORY (last 5 messages):\n").data ++ recentHistory
        ++ ("\n\nUSER\x27S CURRENT REQUEST: ").data ++ inputText
        ++ ("\n\nIMPORTANT INSTRUCTIONS:\n1. If user wants to MODIFY this chart → preserve existing structure, apply only requested changes\n2. If user wants a COMPLETELY NEW chart on a DIFFERENT TOPIC → create fresh data from scratch\n3. Read the conversation history to understand the full context\n\nRespond with ONLY a JSON object:\n\x7b\n  \"action\": \"modify\",\n  \"chartType\": \"same or new type\",\n  \"chartData\": \x7b /* modified or new data */ \x7d,\n  \"chartConfig\": \x7b /* modified or new config */ \x7d,\n  \"user_message\": \"Clear explanation of what you did\",\n  \"changes\": [\"list of specific changes made\"]").data
      let prompt := match templateStructure with
        | some _ => prompt
            ++ (",\n  \"templateContent\": \x7b /* updated text/HTML for template areas */ \x7d").data
        | none => prompt
      let prompt := prompt ++ ("\n\x7d").data
      match templateStructure with
      | some tpl =>
        match tpl.sections with
        | .missing => none
        | .notArray _ => none
        | .array entries =>
          match allSections entries with
          | none => none
          | some secs =>
            let textAreas := secs.filter (fun s => decide (s.type ≠ ("chart").data))
            let prompt := prompt ++ ("\n\n=== TEMPLATE IS ACTIVE ===").data
              ++ ("\nAvailable text areas you can modify:").data
              ++ textAreas.foldl (fun acc s =>
                  let formatType := if s.contentType = some (("html").data) then ("HTML").data
                    else ("plain text").data
                  acc ++ ("\n- \"").data ++ s.type ++ ("\" (").data ++ s.name
                    ++ ("): expects ").data ++ formatType) []
            let sectionsWithNotes := textAreas.filter hasNote
            let prompt :=
              if sectionsWithNotes.length > 0 then
                prompt ++ ("\n\nUser instructions for specific areas:").data
                  ++ sectionsWithNotes.foldl (fun acc s =>
                      acc ++ ("\n- ").data ++ s.name ++ (": \"").data ++ optStr s.note ++ ("\"").data) []
              else prompt
            some (prompt
              ++ ("\n\nREMEMBER: \"main text area\" = templateContent.main, NOT pointImages!").data)
      | none =>
        some (prompt
          ++ ("\n\nNOTE: No template is active. Text areas are not available in chart-only mode.").data)

/-- C5: for every text that is already valid JSON, the Parser/Repair Engine
returns the strict-parse result of that text (the repair branch is never
consulted), and the engine is idempotent: serializing a successful result and
re-running the engine succeeds at stage 1 (strict parse) with the same value. -/
theorem C5_valid_json_identity_and_idempotence :
    (∀ t v, strictParse t = some v → parseJSON t = Except.ok v) ∧
    (∀ t v, parseJSON t = Except.ok v →
      strictParse (serialize v) = some v ∧ parseJSON (serialize v) = Except.ok v) := by
  constructor
  · intro t v h
    simp [parseJSON, h]
  · intro t v _
    have hr := strictParse_serialize v
    exact ⟨hr, by simp [parseJSON, hr]⟩

/-- C5 witness at a concrete valid JSON text. -/
theorem C5_witness :
    parseJSON (("\x7b\"a\":1\x7d").data)
      = Except.ok (JSON.obj [((("a").data), JSON.num 1)]) ∧
    strictParse (serialize (JSON.obj [((("a").data), JSON.num 1)]))
      = some (JSON.obj [((("a").data), JSON.num 1)]) ∧
    parseJSON (serialize (JSON.obj [((("a").data), JSON.num 1)]))
      = Except.ok (JSON.obj [((("a").data), JSON.num 1)]) := by
  have h1 : strictParse (("\x7b\"a\":1\x7d").data)
      = some (JSON.obj [((("a").data), JSON.num 1)]) := rfl
  have h2 := C5_valid_json_identity_and_idempotence.1 _ _ h1
  have h3 := C5_valid_json_identity_and_idempotence.2 _ _ h2
  exact ⟨h2, h3.1, h3.2⟩

/-- C2: whenever the strict parse fails but the stage-2 control-character escape
pass over the trimmed text yields strictly parseable text, the engine recovers
exactly that parse; in particular the text with a literal line feed inside one
string value parses to the object whose field b holds the two lines joined by a
newline character. -/
theorem C2_stage2_escape_recovery :
    (∀ t v, strictParse t = none →
      strictParse (fixHTMLInJSON (jsTrim t)) = some v →
      parseJSON t = Except.ok v) ∧
    parseJSON (("\x7b\"a\":1,\"b\":\"line1\nline2\"\x7d").data)
      = Except.ok (JSON.obj [((("a").data), JSON.num 1),
          ((("b").data), JSON.str (("line1\nline2").data))]) := by
  constructor
  · intro t v h1 h2
    simp [parseJSON, h1, attemptJSONRepair, h2]
  · rfl

/-- C2 witness: the general stage-2 recovery applied at the claim's concrete input. -/
theorem C2_witness :
    strictParse (("\x7b\"a\":1,\"b\":\"line1\nline2\"\x7d").data) = none ∧
    parseJSON (("\x7b\"a\":1,\"b\":\"line1\nline2\"\x7d").data)
      = Except.ok (JSON.obj [((("a").data), JSON.num 1),
          ((("b").data), JSON.str (("line1\nline2").data))]) :=
  ⟨rfl, C2_stage2_escape_recovery.1 _ _ rfl rfl⟩

/-- C7: a response whose trimmed text contains either refusal pattern is rejected
by the normalizer with the refusal error, and the whole generation pipeline
fails with that same refusal error, so the parser is never reached. -/
theorem C7_refusal_before_parsing :
    ∀ t serviceName meta, t ≠ [] →
      (containsSub apology1 (jsTrim t) = true ∨ containsSub apology2 (jsTrim t) = true) →
      cleanResponse t = Except.error Err.refusal ∧
      generateChart t serviceName meta = Except.error Err.refusal := by
  intro t sn meta ht hpat
  have hc : cleanResponse t = Except.error Err.refusal := by
    rcases hpat with h | h <;> simp [cleanResponse, ht, h]
  refine ⟨hc, ?_⟩
  simp only [generateChart, hc]
  rfl

/-- C7 witness at the refusal boilerplate sentence. -/
theorem C7_witness :
    cleanResponse (("I apologize, but I couldn\x27t generate chart data.").data)
      = Except.error Err.refusal ∧
    generateChart (("I apologize, but I couldn\x27t generate chart data.").data)
      (("svc").data) JSON.null = Except.error Err.refusal :=
  C7_refusal_before_parsing _ _ _ (by decide) (Or.inl (by rfl))

theorem jsSetFields_lookup_other (fs : List (List Char × JSON)) (k key : List Char) (x : JSON)
    (h : key ≠ k) : jsLookup (jsSetFields fs k x) key = jsLookup fs key := by
  induction fs with
  | nil =>
    simp [jsSetFields, jsLookup]
    exact fun he => h he.symm
  | cons f fs ih =>
    rcases f with ⟨k2, v⟩
    by_cases h2 : k2 = k
    · subst h2
      have hk : k2 ≠ key := fun he => h (he ▸ rfl)
      simp [jsSetFields, jsLookup, hk]
    · by_cases h3 : k2 = key
      · subst h3
        simp [jsSetFields, h2, jsLookup]
      · simp [jsSetFields, h2, jsLookup, h3, ih]

theorem jsSetFields_append (fs : List (List Char × JSON)) (k : List Char) (x : JSON)
    (h : jsLookup fs k = none) : jsSetFields fs k x = fs ++ [(k, x)] := by
  induction fs with
  | nil => simp [jsSetFields]
  | cons f fs ih =>
    rcases f with ⟨k2, v⟩
    by_cases h2 : k2 = k
    · rw [jsLookup, if_pos h2] at h
      exact absurd h (by simp)
    · rw [jsLookup, if_neg h2] at h
      simp [jsSetFields, h2, ih h]

/-- C10: a modification call whose response normalizes and parses to an object
returns that object with only the _metadata field written: every other field is
looked up unchanged, a previously absent _metadata is appended as the single new
field, no required-field validation is applied (the empty object is returned
with only _metadata added, not a missing-field error, unlike generateChart on
the same response), and no default user_message is filled in. -/
theorem C10_modify_adds_only_metadata :
    (∀ content meta c fs, cleanResponse content = Except.ok c →
      parseJSON c = Except.ok (JSON.obj fs) →
      modifyChart content meta
        = Except.ok (JSON.obj (jsSetFields fs (("_metadata").data) meta)) ∧
      (∀ key, key ≠ ("_metadata").data →
        jsLookup (jsSetFields fs (("_metadata").data) meta) key = jsLookup fs key) ∧
      (jsLookup fs (("_metadata").data) = none →
        jsSetFields fs (("_metadata").data) meta = fs ++ [((("_metadata").data), meta)])) ∧
    modifyChart (("\x7b\x7d").data) JSON.null
      = Except.ok (JSON.obj [((("_metadata").data), JSON.null)]) ∧
    generateChart (("\x7b\x7d").data) (("svc").data) JSON.null
      = Except.error Err.missingChartType := by
  refine ⟨?_, rfl, rfl⟩
  intro content meta c fs hc hp
  refine ⟨?_, fun key hk => jsSetFields_lookup_other fs _ key meta hk,
    fun habs => jsSetFields_append fs _ meta habs⟩
  have h1 : modifyChart content meta
      = (parseJSON c >>= fun chartData => jsSetField chartData (("_metadata").data) meta) := by
    simp only [modifyChart, hc]
    rfl
  rw [h1, hp]
  rfl

/-- C10 witness: a parsed one-field object gains exactly the _metadata field. -/
theorem C10_witness :
    modifyChart (("\x7b\"x\":1\x7d").data) JSON.null
      = Except.ok (JSON.obj [((("x").data), JSON.num 1), ((("_metadata").data), JSON.null)]) := by
  have h := (C10_modify_adds_only_metadata.1 (("\x7b\"x\":1\x7d").data) JSON.null
    (("\x7b\"x\":1\x7d").data) [((("x").data), JSON.num 1)] rfl rfl).1
  exact h.trans (by rfl)

/-- C6 counterexample: the response parses to an object in which the chartType
field is present (the empty string) and the data field is present and truthy,
yet generateChart fails with the missing-chartType error: the source tests
JavaScript truthiness, not presence, so the claim's clause that a call with both
required fields present never fails on this ground is false. -/
theorem C6_counterexample :
    parseJSON (("\x7b\"chartType\":\"\",\"data\":[1]\x7d").data)
      = Except.ok (JSON.obj [((("chartType").data), JSON.str []),
          ((("data").data), JSON.arr [JSON.num 1])]) ∧
    generateChart (("\x7b\"chartType\":\"\",\"data\":[1]\x7d").data) (("svc").data) JSON.null
      = Except.error Err.missingChartType :=
  ⟨rfl, rfl⟩

/-- C6 amended: for a response parsing to an object, generateChart fails with the
missing-chartType error exactly when the chartType field is absent or falsy by
JavaScript truthiness (absent, null, false, zero or the empty string); when
chartType is truthy it fails with the missing-data error exactly when both data
and chartData are absent or falsy; and when chartType is truthy and at least one
data field is truthy it does not fail on either ground. -/
theorem C6_required_fields_truthiness :
    ∀ content serviceName meta c fs, cleanResponse content = Except.ok c →
      parseJSON c = Except.ok (JSON.obj fs) →
      (jsTruthy (jsLookup fs (("chartType").data)) = false →
        generateChart content serviceName meta = Except.error Err.missingChartType) ∧
      (jsTruthy (jsLookup fs (("chartType").data)) = true →
        jsTruthy (jsLookup fs (("data").data)) = false →
        jsTruthy (jsLookup fs (("chartData").data)) = false →
        generateChart content serviceName meta = Except.error Err.missingData) ∧
      (jsTruthy (jsLookup fs (("chartType").data)) = true →
        (jsTruthy (jsLookup fs (("data").data)) = true ∨
          jsTruthy (jsLookup fs (("chartData").data)) = true) →
        generateChart content serviceName meta ≠ Except.error Err.missingChartType ∧
        generateChart content serviceName meta ≠ Except.error Err.missingData) := by
  intro content serviceName meta c fs hc hp
  have h1 : generateChart content serviceName meta
      = (parseJSON c >>= fun chartData => generateValidate chartData serviceName meta) := by
    simp only [generateChart, hc]
    rfl
  have h2 : generateChart content serviceName meta
      = generateValidate (JSON.obj fs) serviceName meta := by
    rw [h1, hp]
    rfl
  refine ⟨fun hct => ?_, fun hct hd1 hd2 => ?_, fun hct hd => ?_⟩
  · have hct2 := hct
    simp at hct2
    rw [h2]
    simp [generateValidate, jsGetField, hct2]
  · have hct2 := hct
    have hda := hd1
    have hdb := hd2
    simp at hct2 hda hdb
    rw [h2]
    simp [generateValidate, jsGetField, hct2, hda, hdb]
  · rw [h2]
    have hct2 := hct
    simp at hct2
    have hcond : (jsTruthy (jsLookup fs (("data").data)) = false ∧
        jsTruthy (jsLookup fs (("chartData").data)) = false) = False := by
      rcases hd with h | h <;> simp [h]
    have hcond2 := hcond
    simp at hcond2
    simp [generateValidate, jsGetField, hct2, hcond2]
    have hif : ¬ (jsTruthy (jsLookup fs ['d', 'a', 't', 'a']) = false ∧
        jsTruthy (jsLookup fs ['c', 'h', 'a', 'r', 't', 'D', 'a', 't', 'a']) = false) := by
      intro hx
      have hy := hcond2 hx.1
      rw [hy] at hx
      exact absurd hx.2 (by simp)
    by_cases hum : jsTruthy (jsLookup fs ['u', 's', 'e', 'r', '_', 'm', 'e',
        's', 's', 'a', 'g', 'e']) = false <;>
      simp [hif, hum, jsSetField] <;> exact hcond2

/-- C6 witness: a truthy chartType with truthy data passes both checks, and a
missing chartType fails with the missing-chartType error. -/
theorem C6_witness :
    (generateChart (("\x7b\"chartType\":\"bar\",\"data\":[1]\x7d").data) (("svc").data) JSON.null
      ≠ Except.error Err.missingChartType) ∧
    generateChart (("\x7b\"a\":1\x7d").data) (("svc").data) JSON.null
      = Except.error Err.missingChartType := by
  constructor
  · exact (C6_required_fields_truthiness (("\x7b\"chartType\":\"bar\",\"data\":[1]\x7d").data)
      (("svc").data) JSON.null (("\x7b\"chartType\":\"bar\",\"data\":[1]\x7d").data)
      [((("chartType").data), JSON.str (("bar").data)), ((("data").data), JSON.arr [JSON.num 1])]
      rfl rfl).2.2 rfl (Or.inl rfl) |>.1
  · exact (C6_required_fields_truthiness (("\x7b\"a\":1\x7d").data) (("svc").data) JSON.null
      (("\x7b\"a\":1\x7d").data) [((("a").data), JSON.num 1)] rfl rfl).1 rfl

/-- C3 counterexample: a well-formed object followed by the trailing garbage
open-brace close-brace x is not recovered: the garbage braces return the scan
depth to zero after the object, the stage-3 truncation keeps them, and the
engine raises instead of returning the leading object. -/
theorem C3_counterexample :
    strictParse (("\x7b\"a\":1\x7d").data) = some (JSON.obj [((("a").data), JSON.num 1)]) ∧
    (("\x7b\"a\":1\x7d\x7b\x7dx").data = ("\x7b\"a\":1\x7d").data ++ ("\x7b\x7dx").data) ∧
    parseJSON (("\x7b\"a\":1\x7d\x7b\x7dx").data) = Except.error (Err.parseFail Diag.truncated) :=
  ⟨rfl, rfl, rfl⟩

/-- C3 amended: the engine recovers a leading object from trailing garbage via
stage 3 exactly when the last index at which the string-aware brace depth of the
control-fixed trimmed text returns to zero lies strictly between the start and
the last character and the prefix up to that index is itself strictly
parseable; garbage whose own braces return the depth to zero later (as in the
counterexample) defeats the salvage. -/
theorem C3_truncation_salvage :
    ∀ t r v, r = fixHTMLInJSON (jsTrim t) →
      strictParse t = none →
      strictParse r = none →
      (braceScan r).1 > 0 →
      (braceScan r).1 < (r.length : Int) - 1 →
      strictParse (r.take ((braceScan r).1.toNat + 1)) = some v →
      parseJSON t = Except.ok v := by
  intro t r v hr h1 h2 h3 h4 h5
  subst hr
  have hrepair : attemptJSONRepair t
      = some ((fixHTMLInJSON (jsTrim t)).take ((braceScan (fixHTMLInJSON (jsTrim t))).1.toNat + 1)) := by
    simp [attemptJSONRepair, h2, h3, h4]
  simp [parseJSON, h1, hrepair, h5]

/-- C3 witness: one trailing garbage character after a complete object is
discarded by the stage-3 truncation. -/
theorem C3_witness :
    parseJSON (("\x7b\"a\":1\x7dx").data) = Except.ok (JSON.obj [((("a").data), JSON.num 1)]) :=
  C3_truncation_salvage (("\x7b\"a\":1\x7dx").data) (("\x7b\"a\":1\x7dx").data)
    (JSON.obj [((("a").data), JSON.num 1)]) rfl rfl rfl (by decide) (by decide) rfl

/-- C4 counterexample: the valid object with its three trailing closers removed
is not recovered: stage 6 appends the bracket before the braces (count order,
not last-in-first-out nesting order), so the repaired text does not parse and
the engine raises. -/
theorem C4_counterexample :
    strictParse (("\x7b\"a\":[\x7b\"b\":1\x7d]\x7d").data)
      = some (JSON.obj [((("a").data),
          JSON.arr [JSON.obj [((("b").data), JSON.num 1)]])]) ∧
    (("\x7b\"a\":[\x7b\"b\":1").data
      = (("\x7b\"a\":[\x7b\"b\":1\x7d]\x7d").data).take
          ((("\x7b\"a\":[\x7b\"b\":1\x7d]\x7d").data).length - 3)) ∧
    parseJSON (("\x7b\"a\":[\x7b\"b\":1").data) = Except.error (Err.parseFail Diag.truncated) :=
  ⟨rfl, rfl, rfl⟩

/-- C4 amended: when no earlier stage fires, stage 6 appends every missing
bracket closer and then every missing brace closer (counts, not a
last-in-first-out stack); the engine recovers exactly those truncations for
which that appended order yields strictly parseable text, and when the scan
finds more closers than openers the repair is abandoned and the engine raises. -/
theorem C4_bracket_closure :
    (∀ t r a o v, r = fixHTMLInJSON (jsTrim t) →
      strictParse t = none →
      strictParse r = none →
      ¬ ((braceScan r).1 > 0 ∧ (braceScan r).1 < (r.length : Int) - 1) →
      rgbaRepair r = none →
      (braceScan r).2 = false →
      (a, o) = bracketCountAux r false false 0 0 →
      0 ≤ a → 0 ≤ o →
      strictParse (r ++ List.replicate a.toNat ']' ++ List.replicate o.toNat '\x7d') = some v →
      parseJSON t = Except.ok v) ∧
    (∀ t r a o, r = fixHTMLInJSON (jsTrim t) →
      strictParse t = none →
      strictParse r = none →
      ¬ ((braceScan r).1 > 0 ∧ (braceScan r).1 < (r.length : Int) - 1) →
      rgbaRepair r = none →
      (braceScan r).2 = false →
      (a, o) = bracketCountAux r false false 0 0 →
      (a < 0 ∨ o < 0) →
      parseJSON t = Except.error (Err.parseFail (diagnose t))) := by
  constructor
  · intro t r a o v hr h1 h2 h3 h4 h5 hcounts ha ho h6
    subst hr
    have hclose : closeBrackets (fixHTMLInJSON (jsTrim t))
        = some (fixHTMLInJSON (jsTrim t) ++ List.replicate a.toNat ']'
            ++ List.replicate o.toNat '\x7d') := by
      simp [closeBrackets, ← hcounts]
      omega
    have hrepair : attemptJSONRepair t
        = some (fixHTMLInJSON (jsTrim t) ++ List.replicate a.toNat ']'
            ++ List.replicate o.toNat '\x7d') := by
      simp [attemptJSONRepair, h2, h3, h4, h5, hclose]
    rw [List.append_assoc] at h6
    simp [parseJSON, h1, hrepair, h6]
  · intro t r a o hr h1 h2 h3 h4 h5 hcounts hneg
    subst hr
    have hclose : closeBrackets (fixHTMLInJSON (jsTrim t)) = none := by
      simp [closeBrackets, ← hcounts]
      omega
    have hrepair : attemptJSONRepair t = none := by
      simp [attemptJSONRepair, h2, h3, h4, h5, hclose]
    simp [parseJSON, h1, hrepair]

/-- C4 witness: a valid object with its two trailing closers removed is restored
by stage 6, and the restored fields are unchanged. -/
theorem C4_witness :
    parseJSON (("\x7b\"a\":[1,2").data)
      = Except.ok (JSON.obj [((("a").data), JSON.arr [JSON.num 1, JSON.num 2])]) :=
  (C4_bracket_closure.1 (("\x7b\"a\":[1,2").data) (("\x7b\"a\":[1,2").data) 1 1
    (JSON.obj [((("a").data), JSON.arr [JSON.num 1, JSON.num 2])])
    rfl rfl rfl (by decide) rfl rfl rfl (by decide) (by decide) rfl)

/-- C1 counterexample: on this input the ordered stage chain of the
specification eventually yields strictly parseable text (stage 3 truncates,
then stage 6 closes the array), but the engine raises: it committed to the
stage-3 truncation, re-checked only that one candidate, and never tried the
later stages. -/
theorem C1_counterexample :
    specRepairChain (("[\x7b\"a\":1\x7d,").data)
      = some (JSON.arr [JSON.obj [((("a").data), JSON.num 1)]]) ∧
    parseJSON (("[\x7b\"a\":1\x7d,").data) = Except.error (Err.parseFail Diag.notJsonShaped) :=
  ⟨rfl, rfl⟩

/-- C1 amended: the engine re-checks by strict parse after stage 2 and then
commits to the first later stage whose trigger condition fires, re-checking only
that stage's single output: it succeeds exactly when strict parse succeeds on
the input or on the one repaired candidate, and it raises whenever that single
candidate fails to parse, even if applying the remaining stages would have
produced parseable text; in particular a fired stage-3 truncation is returned
without consulting stages 4 to 6. -/
theorem C1_single_candidate_commit :
    (∀ t v, parseJSON t = Except.ok v ↔
      (strictParse t = some v ∨
        (strictParse t = none ∧
          ∃ r, attemptJSONRepair t = some r ∧ strictParse r = some v))) ∧
    (∀ t, strictParse t = none →
      strictParse (fixHTMLInJSON (jsTrim t)) = none →
      (braceScan (fixHTMLInJSON (jsTrim t))).1 > 0 →
      (braceScan (fixHTMLInJSON (jsTrim t))).1 < ((fixHTMLInJSON (jsTrim t)).length : Int) - 1 →
      attemptJSONRepair t
        = some ((fixHTMLInJSON (jsTrim t)).take
            ((braceScan (fixHTMLInJSON (jsTrim t))).1.toNat + 1))) := by
  constructor
  · intro t v
    constructor
    · intro h
      cases hs : strictParse t with
      | some w =>
        simp [parseJSON, hs] at h
        exact Or.inl (by rw [h])
      | none =>
        cases ha : attemptJSONRepair t with
        | some r =>
          cases hr : strictParse r with
          | some w =>
            simp [parseJSON, hs, ha, hr] at h
            exact Or.inr ⟨rfl, ⟨r, rfl, hr.trans (by rw [h])⟩⟩
          | none => simp [parseJSON, hs, ha, hr] at h
        | none => simp [parseJSON, hs, ha] at h
    · rintro (h | ⟨hs, r, ha, hr⟩)
      · simp [parseJSON, h]
      · simp [parseJSON, hs, ha, hr]
  · intro t h1 h2 h3 h4
    simp [attemptJSONRepair, h2, h3, h4]

/-- C1 witness: the engine commits to a fired stage-3 truncation even though its
output is invalid, and succeeds when strict parse accepts the lone candidate. -/
theorem C1_witness :
    attemptJSONRepair (("\x7b\"a\":\x7dx").data) = some (("\x7b\"a\":\x7d").data) ∧
    parseJSON (("\x7b\"a\":1\x7d").data) = Except.ok (JSON.obj [((("a").data), JSON.num 1)]) := by
  constructor
  · exact (C1_single_candidate_commit.2 (("\x7b\"a\":\x7dx").data)
      rfl rfl (by decide) (by decide)).trans rfl
  · exact (C1_single_candidate_commit.1 (("\x7b\"a\":1\x7d").data)
      (JSON.obj [((("a").data), JSON.num 1)])).mpr (Or.inl rfl)

theorem sectionsSomeHtml_isSome (secs : List Sect) :
    (sectionsSomeHtml (secs.map some)).isSome = true := by
  induction secs with
  | nil => rfl
  | cons s rest ih =>
    by_cases h : s.contentType = some (("html").data)
    · simp [sectionsSomeHtml, h]
    · simp [sectionsSomeHtml, h, ih]

theorem allSections_map_some (secs : List Sect) :
    allSections (secs.map some) = some secs := by
  induction secs with
  | nil => rfl
  | cons s rest ih => simp [allSections, ih]

/-- C8 counterexample: prompt construction can fail: a truthy template whose
sections value is absent makes buildUserPrompt dereference undefined at the
line-203 filter; and buildSystemPrompt itself raises a TypeError when the
sections value is non-nullish but not an array (the line-167 optional chain
guards only nullish, so the some call lands on undefined), or when the html
scan reaches a null section entry. -/
theorem C8_counterexample :
    buildUserPrompt (("draw a chart").data)
      (some ⟨some (JSON.num 100), some (JSON.num 100),
        some (some (JSON.num 50), some (JSON.num 50)), SectionsVal.missing⟩) = none ∧
    buildSystemPrompt (("You are a chart assistant.").data)
      (some ⟨none, none, none, SectionsVal.notArray (JSON.num 5)⟩) = none ∧
    buildSystemPrompt (("You are a chart assistant.").data)
      (some ⟨none, none, none, SectionsVal.array [none]⟩) = none :=
  ⟨rfl, rfl, rfl⟩

/-- C8 amended: each builder returns a prompt on well-shaped input but none is
total. buildSystemPrompt succeeds when the template is absent or its sections
value is nullish or a proper array of non-null sections, yet raises a TypeError
when the sections value is non-nullish and not an array, or when the html scan
meets a null entry. buildUserPrompt and buildModificationPrompt return a prompt
for every well-shaped input (a proper sections array of non-null sections, a
chartArea object, a chart state whose summary is computable); malformed input
raises a TypeError instead of propagating into the prompt text. -/
theorem C8_prompt_totality :
    (∀ aiContext (tpl : Option Tpl),
      (∀ t : Tpl, tpl = some t → t.sections = SectionsVal.missing ∨
        ∃ secs : List Sect, t.sections = SectionsVal.array (secs.map some)) →
      (buildSystemPrompt aiContext tpl).isSome = true) ∧
    (∀ aiContext (t : Tpl) v, t.sections = SectionsVal.notArray v →
      buildSystemPrompt aiContext (some t) = none) ∧
    (∀ aiContext (t : Tpl) rest, t.sections = SectionsVal.array (none :: rest) →
      buildSystemPrompt aiContext (some t) = none) ∧
    (∀ inputText (tpl : Option Tpl),
      (∀ t : Tpl, tpl = some t →
        (∃ secs : List Sect, t.sections = SectionsVal.array (secs.map some)) ∧
          t.chartArea ≠ none) →
      (buildUserPrompt inputText tpl).isSome = true) ∧
    (∀ ctx st hist input (tpl : Option Tpl) s, buildChartSummary (some st) = some s →
      (∀ t : Tpl, tpl = some t →
        ∃ secs : List Sect, t.sections = SectionsVal.array (secs.map some)) →
      (buildModificationPrompt ctx (some st) hist input tpl).isSome = true) := by
  refine ⟨?_, ?_, ?_, ?_, ?_⟩
  · intro aiContext tpl hshape
    cases tpl with
    | none => simp [buildSystemPrompt]
    | some t =>
      rcases hshape t rfl with h | ⟨secs, h⟩
      · simp [buildSystemPrompt, h]
      · have htot := sectionsSomeHtml_isSome secs
        rcases hb : sectionsSomeHtml (secs.map some) with _ | b
        · rw [hb] at htot
          simp at htot
        · simp [buildSystemPrompt, h, hb]
  · intro aiContext t v h
    simp [buildSystemPrompt, h]
  · intro aiContext t rest h
    simp [buildSystemPrompt, h, sectionsSomeHtml]
  · intro inputText tpl hshape
    cases tpl with
    | none => simp [buildUserPrompt]
    | some t =>
      obtain ⟨⟨secs, hs⟩, hca⟩ := hshape t rfl
      rcases hc : t.chartArea with _ | ca
      · exact absurd hc hca
      · simp [buildUserPrompt, hs, allSections_map_some, hc]
  · intro ctx st hist input tpl s hsum hshape
    cases tpl with
    | none => simp [buildModificationPrompt, hsum]
    | some t =>
      obtain ⟨secs, hs⟩ := hshape t rfl
      simp [buildModificationPrompt, hsum, hs, allSections_map_some]

/-- C8 witness: the builders succeed on concrete well-shaped inputs, among them
a template whose sections value is a proper array of non-null sections. -/
theorem C8_witness :
    (buildSystemPrompt (("ctx").data) none).isSome = true ∧
    (buildSystemPrompt (("ctx").data)
      (some ⟨none, none, none,
        SectionsVal.array [some ⟨("t").data, ("title").data, none, none⟩]⟩)).isSome = true ∧
    (buildUserPrompt (("draw").data) none).isSome = true ∧
    (buildModificationPrompt (("mctx").data) (some ⟨none, none, none⟩) []
      (("change it").data) none).isSome = true := by
  refine ⟨C8_prompt_totality.1 _ _ ?_, C8_prompt_totality.1 _ _ ?_,
    C8_prompt_totality.2.2.2.1 _ _ ?_,
    C8_prompt_totality.2.2.2.2 _ _ _ _ _ (("No chart currently exists.").data) rfl ?_⟩
  · intro t h
    cases h
  · intro t h
    cases h
    exact Or.inr ⟨[⟨("t").data, ("title").data, none, none⟩], rfl⟩
  · intro t h
    cases h
  · intro t h
    cases h

theorem lastFive_idem (h : List Msg) : lastFive (lastFive h) = lastFive h := by
  have hlen : (lastFive h).length = h.length - (h.length - 5) := by
    simp [lastFive]
  have hz : (lastFive h).length - 5 = 0 := by omega
  rw [lastFive, hz, List.drop_zero]

/-- C9: the modification prompt depends on the message history only through its
last five messages (replacing the history by its last five leaves the prompt
unchanged, so earlier messages never appear), and each embedded message carries
its content truncated to at most its first 300 characters, with an ellipsis
marker appended when it was longer. -/
theorem C9_history_window :
    (∀ ctx cs hist input tpl,
      buildModificationPrompt ctx cs hist input tpl
        = buildModificationPrompt ctx cs (lastFive hist) input tpl) ∧
    (∀ hist, recentHistoryStr hist = recentHistoryStr (lastFive hist)) ∧
    (∀ (m : Msg) c, m.content = some c → 300 < c.length →
      msgLine m = m.role ++ (": ").data ++ (c.take 300 ++ ("...").data)) ∧
    (∀ (m : Msg) c, m.content = some c → c.length ≤ 300 →
      msgLine m = m.role ++ (": ").data ++ c) := by
  have hrh : ∀ hist, recentHistoryStr hist = recentHistoryStr (lastFive hist) := by
    intro hist
    rw [recentHistoryStr, recentHistoryStr, lastFive_idem]
  refine ⟨?_, hrh, ?_, ?_⟩
  · intro ctx cs hist input tpl
    simp only [buildModificationPrompt]
    rw [hrh hist]
  · intro m c hc hlen
    simp [msgLine, hc, hlen]
  · intro m c hc hlen
    have hnot : ¬ 300 < c.length := by omega
    simp [msgLine, hc, hnot]

/-- C9 witness: a 301-character message is embedded as its first 300 characters
plus the ellipsis, and a short message is embedded whole. -/
theorem C9_witness :
    msgLine ⟨("user").data, some (List.replicate 301 'a')⟩
      = ("user").data ++ (": ").data ++ ((List.replicate 301 'a').take 300 ++ ("...").data) ∧
    msgLine ⟨("user").data, some (("short").data)⟩
      = ("user").data ++ (": ").data ++ ("short").data := by
  constructor
  · exact C9_history_window.2.2.1 _ _ rfl (by simp)
  · exact C9_history_window.2.2.2 _ _ rfl (by decide)
